import Mathlib

/-!
Shallow embedding of `skt/executable.py` (the skt kernel-CI pipeline driver).

The embedding models:
* the rc document handled through Python 2's `ConfigParser` as an ordered
  list of sections, each an ordered association list of options
  (`ConfigParser` uses `OrderedDict` for both, and lowercases option names
  on `set`); writing the parser to the rc file and reading it back is
  modelled as the identity on this structure (well-formed values assumed);
* `save_state` and the state-section part of `load_config`;
* the `junit` isolation wrapper and the stage commands `cmd_merge`,
  `cmd_build`, `cmd_publish`, `cmd_run`, `cmd_report`, `cmd_cleanup` and the
  driver `cmd_all`, over a state that carries the configuration, the global
  `retcode`, the rc document, the accumulated JUnit test cases, the artifact
  files of the output directory, and a flat file-system set used by cleanup.

External collaborators (KernelTree, KernelBuilder, publisher, runner,
reporter — all outside this file's source) are oracles: records of the
results their methods return, including an explicit fault channel where the
source can observe an escaping exception.  Wall-clock durations and JSON
serialization are not observable by any claim; the test-case `stdout`
snapshot stores the configuration value itself.
-/

namespace Skt

/-- Prefix test on strings (`str.startswith`), written over the character
list so that it evaluates by kernel reduction. -/
def strStartsWith (s pre : String) : Bool := pre.data.isPrefixOf s.data

/-- Lowercasing (`ConfigParser.optionxform`), written over the character
list so that it evaluates by kernel reduction. -/
def strToLower (s : String) : String := ⟨s.data.map Char.toLower⟩

/-- Python truthiness of a configuration value that is either absent/None
(`none`) or a string: `not cfg.get(k)` holds exactly when the value is
missing, `None`, or the empty string. -/
def truthy : Option String → Bool
  | none => false
  | some v => v ≠ ""

/-- The outcome codes from `skt.misc`.  Modelled from the spec: `skt.misc`
is not part of the given source; the spec fixes `SUCCESS`/`FAIL`/`ERROR` as
a tri-level code with exit code 0 for success, nonzero for FAIL and ≥ 2 for
ERROR ("SKT_ERROR and above"). -/
def SKT_SUCCESS : Nat := 0

/-- Modelled from the spec: test-failure tier of the outcome code. -/
def SKT_FAIL : Nat := 1

/-- Modelled from the spec: infrastructure-error tier of the outcome code
("SKT_ERROR and above"). -/
def SKT_ERROR : Nat := 2

/-! ## The rc document (`ConfigParser`) -/

/-- The parsed rc document: ordered sections, each an ordered association
list of (lowercased) option names to values. -/
abbrev Doc : Type := List (String × List (String × String))

/-- `ConfigParser.has_section`. -/
def hasSection (d : Doc) (s : String) : Bool := d.any (fun sec => sec.1 = s)

/-- `ConfigParser.add_section`: a new empty section is appended. -/
def addSection (d : Doc) (s : String) : Doc := d ++ [(s, [])]

/-- `ConfigParser.remove_section`. -/
def removeSection (d : Doc) (s : String) : Doc :=
  d.filter (fun sec => sec.1 ≠ s)

/-- Setting an option inside one section's ordered option list: an existing
key keeps its position and gets the new value (OrderedDict assignment),
a new key is appended. -/
def setOptIn (opts : List (String × String)) (k v : String) :
    List (String × String) :=
  match opts with
  | [] => [(k, v)]
  | (k', v') :: rest =>
      if k' = k then (k, v) :: rest else (k', v') :: setOptIn rest k v

/-- `ConfigParser.set(section, option, value)`: the option name goes through
`optionxform`, i.e. lowercasing. -/
def setOpt (d : Doc) (s k v : String) : Doc :=
  d.map (fun sec => if sec.1 = s then (sec.1, setOptIn sec.2 (strToLower k) v)
                    else sec)

/-- `ConfigParser.items(section)`: the section's options in stored order
(empty for a missing section). -/
def docItems (d : Doc) (s : String) : List (String × String) :=
  ((d.find? (fun sec => sec.1 = s)).map Prod.snd).getD []

/-- Value of one option of one section, if present. -/
def lookupOpt (d : Doc) (s k : String) : Option String :=
  (docItems d s).lookup k

/-! ## `save_state` over a map-shaped configuration

For the persistence claims the configuration is what it is in the source: a
Python dict from key to value.  Only string-or-None values flow through
`save_state` state updates, so the map is `String → Option String`; the
`--state` flag is the truthiness of the `"state"` key, checked — as in the
source — after the updates have been merged in. -/

/-- A map-shaped configuration dict (for the persistence functions). -/
abbrev MCfg : Type := String → Option String

/-- Merging one update into the dict: `cfg[key] = val`. -/
def mcfgSet (c : MCfg) (k : String) (v : Option String) : MCfg :=
  fun k' => if k' = k then v else c k'

/-- One update of the `save_state` write loop: a non-None value is `set`
into the `state` section, a None value is skipped. -/
def writeStateOpt (dd : Doc) (kv : String × Option String) : Doc :=
  match kv.2 with
  | none => dd
  | some v => setOpt dd "state" kv.1 v

/-- The document side of `save_state`: if the (post-merge) `state` flag is
falsy nothing is written; otherwise a `state` section is ensured and every
non-None update is `set` into it, and the whole document is rewritten to the
rc path (rewriting is the identity in this model: the document is the
file). -/
def saveStateDoc (stateOn : Bool) (d : Doc)
    (updates : List (String × Option String)) : Doc :=
  if stateOn then
    let d1 := if hasSection d "state" then d else addSection d "state"
    updates.foldl writeStateOpt d1
  else d

/-- `save_state(cfg, state)`: merge every update into the dict, then — when
the `state` flag is truthy — write the non-None updates into the `state`
section and rewrite the document. -/
def saveState (cfg : MCfg) (d : Doc)
    (updates : List (String × Option String)) : MCfg × Doc :=
  let cfg' := updates.foldl (fun c kv => mcfgSet c kv.1 kv.2) cfg
  (cfg', saveStateDoc (truthy ( cfg' "state")) d updates)

/-! ## The state-section part of `load_config`

`load_config` walks `config.items('state')` in document order.  Every item
whose name is not already truthy in the configuration is stored as a scalar,
and names of the five numbered key families additionally feed an aggregate:
`jobid_*` values are `add`ed to a Python *set* `cfg["jobs"]`, while the four
other families append to Python *lists*.  The aggregates live under the
fixed keys `jobs`/`mergerepos`/`mergeheads`/`localpatches`/`patchworks`,
which never collide with state option names written by `save_state`, so the
model keeps them in fields separate from the scalar map. -/

structure LCfg where
  base : String → Option String
  jobs : Option (Finset String)
  mergerepos : Option (List String)
  mergeheads : Option (List String)
  localpatches : Option (List String)
  patchworks : Option (List String)

/-- The fresh configuration of a new invocation: no state names present,
no aggregates built yet. -/
def emptyLCfg : LCfg :=
  { base := fun _ => none, jobs := none, mergerepos := none,
    mergeheads := none, localpatches := none, patchworks := none }

/-- One iteration of the state-section loop of `load_config`.  Guarded by
`if not cfg.get(name)`; inside the guard the aggregate for the name's key
family is extended (`set.add` for `jobid_`, `list.append` for the others)
and the scalar `cfg[name] = value` is stored. -/
def loadItem (c : LCfg) (nv : String × String) : LCfg :=
  if truthy (c.base nv.1) then c
  else
    let c1 :=
      if strStartsWith nv.1 "jobid_" then
        { c with jobs := some (insert nv.2 (c.jobs.getD ∅)) }
      else if strStartsWith nv.1 "mergerepo_" then
        { c with mergerepos := some (c.mergerepos.getD [] ++ [nv.2]) }
      else if strStartsWith nv.1 "mergehead_" then
        { c with mergeheads := some (c.mergeheads.getD [] ++ [nv.2]) }
      else if strStartsWith nv.1 "localpatch_" then
        { c with localpatches := some (c.localpatches.getD [] ++ [nv.2]) }
      else if strStartsWith nv.1 "patchwork_" then
        { c with patchworks := some (c.patchworks.getD [] ++ [nv.2]) }
      else c
    { c1 with base := fun k => if k = nv.1 then some nv.2 else c1.base k }

/-- The whole state-section loop, over the items in document order. -/
def loadStateSection (c : LCfg) (its : List (String × String)) : LCfg :=
  its.foldl loadItem c

/-- The guarded entry of the loop in `load_config`: the state section is
read only when the `--state` flag is on and the document has one. -/
def loadStateCfg (stateOn : Bool) (d : Doc) (c : LCfg) : LCfg :=
  if stateOn ∧ hasSection d "state" then loadStateSection c (docItems d "state")
  else c

/-! ## Faults

A fault is an exception escaping some call.  The stages classify by
exception type: `cmd_merge` handles `PatchApplicationError`, `cmd_build`
handles its four build-failure types (`CommandTimeoutError`,
`subprocess.CalledProcessError`, `ParsingError`, `IOError`) collapsed here
into one constructor; everything else is re-raised unchanged. -/

inductive Fault where
  | patchApplication (msg : String)
  | buildClassified (msg : String)
  | exc (msg : String)
deriving DecidableEq

/-- The message of the exception (`str(exc)`, what `logging.error(exc)`
prints). -/
def faultMsg : Fault → String
  | .patchApplication m => m
  | .buildClassified m => m
  | .exc m => m

/-- `traceback.format_exc()` of a fault, as logged and recorded by the
`junit` wrapper. -/
def traceOf : Fault → String
  | .patchApplication m => "Traceback: PatchApplicationError: " ++ m
  | .buildClassified m => "Traceback: BuildError: " ++ m
  | .exc m => "Traceback: Exception: " ++ m

/-! ## The pipeline configuration and state -/

/-- The fields of the configuration dict that the stage commands read or
write.  `None`-or-string fields are `Option String`; `store_true` flags are
`Bool`; the publisher/runner selection triples are kept only to reflect
that `getpublisher(*cfg.get('publisher'))` / `getrunner(*cfg.get('runner'))`
fault when the field is `None`.  Numbered state keys (`mergerepo_00`, …)
written by `save_state` are tracked in the rc document; the corresponding
dict entries are never read again inside one invocation and are not
duplicated here. -/
structure Cfg where
  junit : Option String := none
  wait : Bool := false
  wipe : Bool := false
  state : Bool := false
  baserepo : Option String := none
  basehead : Option String := none
  commitdate : Option String := none
  mergeRef : List (String × Option String) := []
  patch : List String := []
  pw : List String := []
  workdir : Option String := none
  buildhead : Option String := none
  uid : Option String := none
  mergelog : Option String := none
  buildlog : Option String := none
  tarpkg : Option String := none
  buildconf : Option String := none
  krelease : Option String := none
  kernelArch : Option String := none
  buildurl : Option String := none
  cfgurl : Option String := none
  publisher : Option (String × String × String) := none
  runner : Option (String × String) := none
  reporter : Option String := none
  jobs : List String := []
deriving DecidableEq

/-- A `junit_xml.TestCase` as the wrapper fills it in: name, classname
`"skt"`, the accumulated failure and error infos, and the configuration
snapshot stored as captured stdout (JSON serialization is modelled as the
snapshot itself; the wall-clock `elapsed_sec` is not modelled). -/
structure TestCase where
  name : String
  classname : String
  failureInfo : List String
  errorInfo : List String
  stdout : Option Cfg
deriving DecidableEq

/-- The whole mutable state of one invocation: the configuration dict, the
global `retcode`, the parsed rc document (which is also the rc file), the
`_testcases` list, the artifact files of the output directory (name to
content), a flat set of other file-system paths (tarball, work tree), the
sequence of `logging.error` messages, and a ghost trace recording the entry
of each stage command (for stating execution order; no source behaviour
depends on it). -/
structure St where
  cfg : Cfg
  retcode : Nat := SKT_SUCCESS
  doc : Doc := []
  testcases : List TestCase := []
  files : List (String × String) := []
  fs : List String := []
  log : List String := []
  trace : List String := []
deriving DecidableEq

/-- Ghost instrumentation: record that a stage command was entered. -/
def addTrace (nm : String) (s : St) : St := { s with trace := s.trace ++ [nm] }

/-- Assignment to the global `retcode`. -/
def setRc (s : St) (n : Nat) : St := { s with retcode := n }

/-- `logging.error`. -/
def logError (s : St) (m : String) : St := { s with log := s.log ++ [m] }

/-- The stale-result purge at the start of merge/build/run: every file of
the output directory whose name starts with `"<stage>."` is unlinked
(a missing output directory is ignored by the source's `except OSError`). -/
def purgeFiles (s : St) (pre : String) : St :=
  { s with files := s.files.filter (fun f => !(strStartsWith f.1 pre)) }

/-- `report_results`: write the result string and the report string to the
two artifact files (create or overwrite). -/
def reportResults (s : St) (resultName resultStr reportName reportStr : String) :
    St :=
  { s with files := setOptIn (setOptIn s.files resultName resultStr)
                      reportName reportStr }

/-- A `save_state` call from inside a stage: `cfgUpd` is the merge of the
updates into the configuration dict (spelled out field by field at each call
site), and the document side is shared with the map-shaped model. -/
def stSave (s : St) (cfgUpd : Cfg → Cfg) (us : List (String × Option String)) :
    St :=
  let cfg' := cfgUpd s.cfg
  { s with cfg := cfg', doc := saveStateDoc cfg'.state s.doc us }

/-- `'%02d' % n`. -/
def pad2 (n : Nat) : String :=
  if n < 10 then "0" ++ toString n else toString n

/-- `'%s' % v` for a possibly-`None` value. -/
def pyStr : Option String → String
  | none => "None"
  | some v => v

/-- `s[:12]`. -/
def take12 (s : String) : String := ⟨s.data.take 12⟩

/-- `str.strip()`: whitespace removed from both ends. -/
def pyStrip (s : String) : String :=
  ⟨((s.data.dropWhile Char.isWhitespace).reverse.dropWhile
      Char.isWhitespace).reverse⟩

/-- Existence of a path in the flat file-system set. -/
def fsHas (l : List String) (x : String) : Bool := l.any (fun p => p = x)

/-- Occurrence of one character list inside another. -/
def listInfixOf (sub : List Char) : List Char → Bool
  | [] => sub.isEmpty
  | c :: t => sub.isPrefixOf (c :: t) || listInfixOf sub t

/-- Python `sub in s` substring containment. -/
def containsSub (s sub : String) : Bool := listInfixOf sub.data s.data

/-- `os.path.abspath`, modelled as the identity: path canonicalization
depends on the process's working directory and is observed by no claim. -/
def osAbspath (p : String) : String := p

/-- `skt.join_with_slash`. -/
def joinSlash (a b : String) : String := a ++ "/" ++ b

/-- `os.path.basename`. -/
def basenameOf (p : String) : String := ((p.splitOn "/").getLast?).getD ""

/-- `os.path.dirname`. -/
def dirnameOf (p : String) : String :=
  String.intercalate "/" ((p.splitOn "/").dropLast)

/-- `addtstamp(path, tstamp)`. -/
def addtstamp (p ts : String) : String :=
  joinSlash (dirnameOf p) (ts ++ "-" ++ basenameOf p)

/-! ## Collaborator oracles -/

/-- The `KernelTree` collaborator: results of its methods, the path of its
merge log, and the content (lines) of that log file as read by the
`PatchApplicationError` handler. -/
structure KTreeO where
  checkout : Except Fault String
  getCommitDate : String → String
  mergeGitRef : String → Option String → Except Fault (Nat × String)
  mergePatchFile : String → Option Fault
  mergePatchworkPatch : String → Option Fault
  getpath : String
  getCommitHash : String
  mergelog : String
  mergelogLines : List String

/-- The `KernelBuilder` collaborator. -/
structure BuilderO where
  mktgz : Except Fault String
  buildlog : String
  getCfgpath : String
  getrelease : String
  buildArch : String

/-- The publisher collaborator. -/
structure PublisherO where
  publish : String → Except Fault String

/-- The runner collaborator: the outcome of `runner.run`, the submitted job
identifiers, and the per-job result of `dumpjunitresults`. -/
structure RunnerO where
  runResult : Except Fault Nat
  jobs : List String
  dumpjunit : String → Option Fault

/-- The reporter collaborator (`reporter.report()`, with the `sys.exit` on
an unknown reporter type also represented as a fault: `cmd_report` is
unwrapped, so both just abort the invocation). -/
structure ReporterO where
  reportResult : Option Fault

/-- All collaborators plus the build timestamp drawn at the start of
`cmd_build` and the patch-name lookup `skt.get_patch_name(get_patch_mbox _)`
used for the patchwork report lines. -/
structure Oracles where
  ktree : KTreeO
  patchName : String → String
  builder : BuilderO
  tstamp : String
  publisher : PublisherO
  runner : RunnerO
  reporter : ReporterO

/-! ## `cmd_merge` -/

/-- Control outcome of the merge-ref loop: fell through normally, hit a
nonzero merge result and `return`ed, or an exception escaped the body. -/
inductive MergeCtl where
  | finished (bhead : String) (rstr : String) (idx : Nat) (utypes : List String)
  | earlyReturn
  | raised (f : Fault)

/-- The `for mb in cfg.get('merge_ref')` loop: persist the pre-merge
repo/head under numbered keys, merge, and on a nonzero result write
`merge.result=false` (unless the result is exactly `SKT_ERROR`) and stop;
on success extend the narrative and continue. -/
def mergeRefLoop (o : KTreeO) :
    List (String × Option String) → St → String → String → Nat →
    List String → St × MergeCtl
  | [], s, bhead, rstr, idx, utypes => (s, .finished bhead rstr idx utypes)
  | mb :: rest, s, bhead, rstr, idx, utypes =>
      let s1 := stSave s (fun c => c)
        [("mergerepo_" ++ pad2 idx, some mb.1),
         ("mergehead_" ++ pad2 idx, some bhead)]
      match o.mergeGitRef mb.1 mb.2 with
      | .error f => (s1, .raised f)
      | .ok (code, bhead') =>
          let s2 := setRc s1 code
          let utypes' := utypes ++ ["[git]"]
          if code ≠ 0 then
            if code ≠ SKT_ERROR then
              (reportResults s2 "merge.result" "false" "merge.report" rstr,
               .earlyReturn)
            else (s2, .earlyReturn)
          else
            mergeRefLoop o rest s2 bhead'
              (rstr ++ "  - " ++ mb.1 ++ "\n    into commit " ++ take12 bhead')
              (idx + 1) utypes'

/-- The shared shape of the two patch loops (local files / patchwork URLs):
persist the numbered key, extend the narrative, attempt the merge, and stop
at the first fault. -/
def patchLoop (merge : String → Option Fault) (keyBase : String)
    (lineOf : String → String) :
    List String → St → String → Nat → St × String × Option Fault
  | [], s, rstr, _ => (s, rstr, none)
  | p :: rest, s, rstr, idx =>
      let s1 := stSave s (fun c => c) [(keyBase ++ pad2 idx, some p)]
      let rstr1 := rstr ++ lineOf p
      match merge p with
      | some f => (s1, rstr1, some f)
      | none => patchLoop merge keyBase lineOf rest s1 rstr1 (idx + 1)

/-- The lines of the merge log kept by the failure handler: everything up
to the first `git am` boilerplate boundary marker. -/
def truncLog (lns : List String) : List String :=
  lns.takeWhile (fun l =>
    !(containsSub l "The copy of the patch" || containsSub l "see the failed patch"))

/-- The `except PatchApplicationError` handler of `cmd_merge`: classify as
`SKT_FAIL`, log the exception, persist the merge-log path, embed the
truncated merge log in the report, write `merge.result=false`, and return
normally.  Any other exception is re-raised. -/
def mergeFaultHandler (o : KTreeO) (s : St) (rstr : String) (f : Fault) :
    St × Option Fault :=
  match f with
  | .patchApplication m =>
      let s1 := setRc s SKT_FAIL
      let s2 := logError s1 m
      let s3 := stSave s2 (fun c => { c with mergelog := some o.mergelog })
        [("mergelog", some o.mergelog)]
      let rstr1 := rstr ++
        "\nHowever, the application of the last patch above failed with the" ++
        "\nfollowing output:\n\n"
      let rstr2 := rstr1 ++ String.join
        ((truncLog o.mergelogLines).map (fun l => "    " ++ pyStrip l ++ "\n"))
      let rstr3 := rstr2 ++
        "\nPlease note that if there are subsequent patches in the series," ++
        " they weren\x27t" ++ "\napplied because of the error message stated above.\n"
      (reportResults s3 "merge.result" "false" "merge.report" rstr3, none)
  | _ => (s, some f)

/-- The success tail of `cmd_merge`: derive the uid, persist
`{workdir, buildhead, uid}`, and write `merge.result=true`. -/
def mergeSuccessTail (o : KTreeO) (s : St) (utypes : List String)
    (rstr : String) : St × Option Fault :=
  let uid := if utypes = [] then "[baseline]" else String.intercalate " " utypes
  let kpath := o.getpath
  let bh := o.getCommitHash
  let s1 := stSave s
    (fun c => { c with workdir := some kpath, buildhead := some bh,
                       uid := some uid })
    [("workdir", some kpath), ("buildhead", some bh), ("uid", some uid)]
  (reportResults s1 "merge.result" "true" "merge.report" rstr, none)

/-- The body of `cmd_merge`. -/
def cmdMergeBody (o : KTreeO) (pn : String → String) (s : St) :
    St × Option Fault :=
  let s0 := addTrace "cmd_merge" s
  match o.checkout with
  | .error f => (s0, some f)
  | .ok bhead0 =>
    let commitdate := o.getCommitDate bhead0
    let s1 := stSave s0
      (fun c => { c with basehead := some bhead0, commitdate := some commitdate })
      [("baserepo", s0.cfg.baserepo), ("basehead", some bhead0),
       ("commitdate", some commitdate)]
    let s2 := purgeFiles s1 "merge."
    let rstr0 := "We cloned the git tree and checked out " ++ take12 bhead0 ++
      " from the repository at" ++ "\n  " ++ pyStr s2.cfg.baserepo
    if s2.cfg.mergeRef ≠ [] then
      let rstr1 := rstr0 ++ "\n" ++
        "We merged the following references into the tree:"
      match mergeRefLoop o s2.cfg.mergeRef s2 bhead0 rstr1 0 [] with
      | (s3, .raised f) => mergeFaultHandler o s3 rstr1 f
      | (s3, .earlyReturn) => (s3, none)
      | (s3, .finished _ rstr _ utypes) => mergeSuccessTail o s3 utypes rstr
    else if s2.cfg.patch ≠ [] ∨ s2.cfg.pw ≠ [] then
      let rstrP := "We applied the following patch(es):\n"
      let (s3, rstr1, flt, utypes) :=
        if s2.cfg.patch ≠ [] then
          let r := patchLoop o.mergePatchFile "localpatch_"
            (fun p => "  - " ++ p ++ "\n") (s2.cfg.patch.map osAbspath) s2 rstrP 0
          (r.1, r.2.1, r.2.2, ["[local patch]"])
        else
          let r := patchLoop o.mergePatchworkPatch "patchwork_"
            (fun p => "  - " ++ pn p ++ ",\n" ++ "    grabbed from " ++ p ++ "\n")
            s2.cfg.pw s2 rstrP 0
          (r.1, r.2.1, r.2.2, ["[patchwork]"])
      match flt with
      | some f => mergeFaultHandler o s3 rstr1 f
      | none =>
          let rstr2 := rstr1 ++ "on top of commit " ++ take12 bhead0 ++
            " from the repository at" ++ "\n  " ++ pyStr s3.cfg.baserepo
          mergeSuccessTail o s3 utypes rstr2
    else
      mergeSuccessTail o s2 [] rstr0

/-! ## `cmd_build` -/

/-- The body of `cmd_build`. -/
def cmdBuildBody (b : BuilderO) (tstamp : String) (s : St) :
    St × Option Fault :=
  let s0 := addTrace "cmd_build" s
  let s1 := purgeFiles s0 "build."
  let (s2, tgzOpt, escaped) :=
    match b.mktgz with
    | .ok t => (s1, some t, (none : Option Fault))
    | .error f =>
        match f with
        | .buildClassified m =>
            let sA := logError s1 m
            let sB := stSave sA (fun c => { c with buildlog := some b.buildlog })
              [("buildlog", some b.buildlog)]
            (setRc sB SKT_FAIL, none, none)
        | _ => (s1, none, some f)
  match escaped with
  | some f => (s2, some f)
  | none =>
    let s3 :=
      match tgzOpt with
      | some tgz =>
          let ttgz := if truthy s2.cfg.buildhead then pyStr s2.cfg.buildhead ++ ".tar.gz"
                      else addtstamp tgz tstamp
          let sM := { s2 with fs := (s2.fs.filter (fun p => p ≠ tgz)) ++ [ttgz] }
          stSave sM (fun c => { c with tarpkg := some ttgz })
            [("tarpkg", some ttgz)]
      | none => s2
    let tconfig := pyStr s3.cfg.buildhead ++ ".csv.config"
    let s4 := { s3 with fs := s3.fs ++ [tconfig] }
    let krelease := b.getrelease
    let s5 := stSave s4
      (fun c => { c with buildconf := some tconfig, krelease := some krelease,
                         kernelArch := some b.buildArch })
      [("buildconf", some tconfig), ("krelease", some krelease),
       ("kernel_arch", some b.buildArch)]
    let rstr := "The kernel was built with the attached configuration (\x7b" ++
      tconfig ++ "\x7d)"
    let rstr' := if s5.retcode ≠ 0 then
        rstr ++ "\nHowever, the build failed. We are attaching the build output for"
          ++ "\nmore information (\x7b" ++ basenameOf b.buildlog ++ "\x7d)"
      else rstr
    (reportResults s5 "build.result" (if s5.retcode = 0 then "true" else "false")
      "build.report" rstr', none)

/-! ## `cmd_publish` -/

/-- The body of `cmd_publish`: select the publisher (a missing selection
triple faults), require a truthy `tarpkg` (else raise), publish the tarball
and — if a build config snapshot exists — the config, then persist
`{buildurl, cfgurl}` (a `None` cfgurl is an in-memory-only update).
No artifact files are touched. -/
def cmdPublishBody (p : PublisherO) (s : St) : St × Option Fault :=
  let s0 := addTrace "cmd_publish" s
  match s0.cfg.publisher with
  | none => (s0, some (Fault.exc "getpublisher: publisher configuration missing"))
  | some _ =>
    if truthy s0.cfg.tarpkg then
      match p.publish (pyStr s0.cfg.tarpkg) with
      | .error f => (s0, some f)
      | .ok url =>
        if truthy s0.cfg.buildconf then
          match p.publish (pyStr s0.cfg.buildconf) with
          | .error f => (s0, some f)
          | .ok cu =>
              (stSave s0
                (fun c => { c with buildurl := some url, cfgurl := some cu })
                [("buildurl", some url), ("cfgurl", some cu)], none)
        else
          (stSave s0 (fun c => { c with buildurl := some url, cfgurl := none })
            [("buildurl", some url), ("cfgurl", none)], none)
    else
      (s0, some (Fault.exc "skt publish is missing \"--tarpkg <path>\" option"))

/-! ## `cmd_run` -/

/-- The `for job in runner.jobs` loop of `cmd_run`: when both `wait` and
JUnit collection were requested, translate the job's remote results, a
fault degrading `retcode` to `SKT_ERROR`; then persist the job id under
`jobid_<idx>` (decimal, unpadded) and continue with the next job. -/
def runJobs (r : RunnerO) : List String → St → Nat → St
  | [], s, _ => s
  | job :: rest, s, idx =>
      let s1 :=
        if s.cfg.wait ∧ truthy s.cfg.junit then
          match r.dumpjunit job with
          | some f => setRc (logError s (faultMsg f)) SKT_ERROR
          | none => s
        else s
      let s2 := stSave s1 (fun c => c) [("jobid_" ++ toString idx, some job)]
      runJobs r rest s2 (idx + 1)

/-- The body of `cmd_run`. -/
def cmdRunBody (r : RunnerO) (s : St) : St × Option Fault :=
  let s0 := addTrace "cmd_run" s
  let s1 := purgeFiles s0 "run."
  match s1.cfg.runner with
  | none => (s1, some (Fault.exc "getrunner: runner configuration missing"))
  | some _ =>
    match r.runResult with
    | .error f => (s1, some f)
    | .ok code =>
      let s2 := setRc s1 code
      let s3 := runJobs r r.jobs s2 0
      let s4 := { s3 with cfg := { s3.cfg with jobs := r.jobs } }
      let s5 := stSave s4 (fun c => c) [("retcode", some (toString s4.retcode))]
      if s5.retcode ≠ SKT_ERROR then
        (reportResults s5 "run.result" (if s5.retcode ≠ 0 then "true" else "false")
          "run.report" "", none)
      else (s5, none)

/-! ## `cmd_report` and `cmd_cleanup` (unwrapped) -/

/-- `cmd_report`: nothing to do without a reporter configuration; otherwise
the selected reporter runs and any fault aborts the invocation. -/
def cmdReport (rep : ReporterO) (s : St) : St × Option Fault :=
  let s0 := addTrace "cmd_report" s
  if truthy s0.cfg.reporter then
    match rep.reportResult with
    | some f => (s0, some f)
    | none => (s0, none)
  else (s0, none)

/-- First action of `cmd_cleanup`: remove the `state` section of the rc
document whenever it is present (the `--state` flag is not consulted) and
rewrite the file. -/
def cleanupState (s : St) : St :=
  if hasSection s.doc "state"
  then { s with doc := removeSection s.doc "state" } else s

/-- Second action of `cmd_cleanup`: unlink the tarball if the configuration
names one, ignoring a missing file (`except OSError: pass`). -/
def cleanupTar (s : St) : St :=
  if truthy s.cfg.tarpkg
  then { s with fs := s.fs.filter (fun p => p ≠ pyStr s.cfg.tarpkg) }
  else s

/-- Third action of `cmd_cleanup`: if `--wipe` was given and the
configuration has a work directory, remove the whole tree —
`shutil.rmtree` of a missing directory raises, uncaught. -/
def cleanupWipe (s : St) : St × Option Fault :=
  if s.cfg.wipe ∧ truthy s.cfg.workdir then
    if fsHas s.fs (pyStr s.cfg.workdir) then
      ({ s with fs := s.fs.filter (fun p => p ≠ pyStr s.cfg.workdir) }, none)
    else (s, some (Fault.exc "shutil.rmtree: no such file or directory"))
  else (s, none)

/-- `cmd_cleanup`: the three actions in source order. -/
def cmdCleanup (s : St) : St × Option Fault :=
  cleanupWipe (cleanupTar (cleanupState (addTrace "cmd_cleanup" s)))

/-! ## The `junit` isolation wrapper and the driver -/

/-- The wrapper produced by the `@junit` decorator.  With a truthy JUnit
directory: run the stage, catch any escaping fault (log its trace, record
it, force `retcode` to `SKT_ERROR`), then classify the final `retcode`
(`== SKT_FAIL` → failure info, elif `>= SKT_ERROR` → error info), attach
the configuration snapshot, and append the test case.  Without it: just
call the stage function. -/
def junitWrap (nm : String) (f : St → St × Option Fault) (s : St) :
    St × Option Fault :=
  if truthy s.cfg.junit then
    let r := f s
    let s1 := r.1
    let (s2, traceErrs) :=
      match r.2 with
      | some fl =>
          ({ s1 with retcode := SKT_ERROR, log := s1.log ++ [traceOf fl] },
           [traceOf fl])
      | none => (s1, ([] : List String))
    let (failures, errors2) :=
      if s2.retcode = SKT_FAIL then
        (["Step finished with retcode: " ++ toString s2.retcode],
         ([] : List String))
      else if SKT_ERROR ≤ s2.retcode then
        ([], ["Infrastructure issue or skt bug detected, retcode: " ++
              toString s2.retcode])
      else ([], [])
    let tc : TestCase :=
      { name := nm, classname := "skt", failureInfo := failures,
        errorInfo := traceErrs ++ errors2, stdout := some s2.cfg }
    ({ s2 with testcases := s2.testcases ++ [tc] }, none)
  else f s

/-- Sequencing of the driver: a fault escaping one command aborts the rest
(the state mutated so far survives, as with a propagating exception). -/
def seqSt (r : St × Option Fault) (g : St → St × Option Fault) :
    St × Option Fault :=
  match r.2 with
  | none => g r.1
  | some f => (r.1, some f)

/-- The wrapped merge stage. -/
def cmdMerge (o : Oracles) : St → St × Option Fault :=
  junitWrap "cmd_merge" (cmdMergeBody o.ktree o.patchName)

/-- The wrapped build stage. -/
def cmdBuild (o : Oracles) : St → St × Option Fault :=
  junitWrap "cmd_build" (cmdBuildBody o.builder o.tstamp)

/-- The wrapped publish stage. -/
def cmdPublish (o : Oracles) : St → St × Option Fault :=
  junitWrap "cmd_publish" (cmdPublishBody o.publisher)

/-- The wrapped run stage. -/
def cmdRun (o : Oracles) : St → St × Option Fault :=
  junitWrap "cmd_run" (cmdRunBody o.runner)

/-- `cmd_all`: merge, build, publish, run, report only when `wait` was
requested, then cleanup. -/
def cmdAll (o : Oracles) (s : St) : St × Option Fault :=
  seqSt (seqSt (seqSt (seqSt (seqSt (cmdMerge o s) (cmdBuild o)) (cmdPublish o))
    (cmdRun o))
    (fun s' => if s'.cfg.wait then cmdReport o.reporter s' else (s', none)))
    cmdCleanup

/-- The pair of configuration fields the driver and the wrapper dispatch
on; every stage body leaves them unchanged. -/
def jw (s : St) : Option String × Bool := (s.cfg.junit, s.cfg.wait)

/-! ## Specification-side helpers (for stating amended claims) -/

/-- The values of one numbered key family, in document order. -/
def famVals (pre : String) (its : List (String × String)) : List String :=
  (its.filter (fun nv => strStartsWith nv.1 pre)).map Prod.snd

/-- List-aggregate accumulation, mirroring the `append` steps of
`load_config`. -/
def appList (o : Option (List String)) : List String → Option (List String)
  | [] => o
  | v :: rest => appList (some (o.getD [] ++ [v])) rest

/-- Set-aggregate accumulation, mirroring the `set.add` steps of
`load_config` for `jobid_` keys. -/
def appJobs (o : Option (Finset String)) : List String → Option (Finset String)
  | [] => o
  | v :: rest => appJobs (some (insert v (o.getD ∅))) rest

/-- Whether the merge-ref loop stops at a git merge whose returned code is
exactly `SKT_ERROR` (the one nonzero code for which `cmd_merge` suppresses
the artifact pair). -/
def gitErrorStops (o : KTreeO) : List (String × Option String) → Bool
  | [] => false
  | mb :: rest =>
      match o.mergeGitRef mb.1 mb.2 with
      | .error _ => false
      | .ok (code, _) =>
          if code ≠ 0 then decide (code = SKT_ERROR)
          else gitErrorStops o rest

/-! ## Concrete fixtures for witnesses and counterexamples -/

/-- A tree oracle for a baseline checkout with no merges or patches. -/
def ktBase : KTreeO :=
  { checkout := .ok "1234567890abcdef", getCommitDate := fun _ => "2017-01-01",
    mergeGitRef := fun _ _ => .ok (0, "feedface00112233"),
    mergePatchFile := fun _ => none, mergePatchworkPatch := fun _ => none,
    getpath := "/work/linux", getCommitHash := "cafebabe00112233",
    mergelog := "/work/merge.log", mergelogLines := [] }

/-- A builder whose `mktgz` fails with one of the classified build faults. -/
def builderFailO : BuilderO :=
  { mktgz := .error (.buildClassified "make exited with code 2"),
    buildlog := "/work/build.log", getCfgpath := "/work/config",
    getrelease := "4.14.0-test", buildArch := "x86_64" }

/-- A builder whose `mktgz` succeeds. -/
def builderOkO : BuilderO :=
  { mktgz := .ok "/work/kernel.tar.gz", buildlog := "/work/build.log",
    getCfgpath := "/work/config", getrelease := "4.14.0-test",
    buildArch := "x86_64" }

/-- A publisher that succeeds. -/
def pubOkO : PublisherO := { publish := fun p => .ok ("http://srv" ++ p) }

/-- A runner that returns `SKT_SUCCESS` with no jobs. -/
def runOkO : RunnerO := { runResult := .ok 0, jobs := [], dumpjunit := fun _ => none }

/-- A runner that returns the above-`SKT_ERROR` outcome code 3. -/
def run3O : RunnerO := { runResult := .ok 3, jobs := [], dumpjunit := fun _ => none }

/-- A reporter that succeeds. -/
def repOkO : ReporterO := { reportResult := none }

/-- A configuration with publisher and runner selections, no JUnit
directory, `wait` not requested. -/
def cfg0 : Cfg :=
  { publisher := some ("cp", "/srv/pub", "http://srv"),
    runner := some ("beaker", "opts") }

/-- The invocation state for `cfg0`. -/
def st0 : St := { cfg := cfg0 }

/-- `cfg0` with JUnit collection requested. -/
def cfgJ : Cfg := { cfg0 with junit := some "/junit" }

/-- The invocation state for `cfgJ`. -/
def stJ : St := { cfg := cfgJ }

/-- `cfg0` with a produced tarball path (for publish). -/
def stPub : St := { cfg := { cfg0 with tarpkg := some "/work/kernel.tar.gz" } }

/-- Oracles where the build fails with a classified fault (so no tarball is
produced). -/
def oraclesNoTar : Oracles :=
  { ktree := ktBase, patchName := fun _ => "a patch", builder := builderFailO,
    tstamp := "20170101000000", publisher := pubOkO, runner := runOkO,
    reporter := repOkO }

/-- Oracles for a fully successful invocation. -/
def oraclesOk : Oracles := { oraclesNoTar with builder := builderOkO }

/-- A document whose `state` section has one entry (for the cleanup
counterexample). -/
def docWithState : Doc := [("config", [("workdir", "/work")]), ("state", [("tarpkg", "/t")])]

/-- A map-shaped configuration with the `--state` flag on (persistence
witnesses). -/
def mcStateOn : MCfg := fun k => if k = "state" then some "true" else none

/-- A concrete update set with one non-null and one null value. -/
def usEx : List (String × Option String) :=
  [("tarpkg", some "/w/k.tar.gz"), ("cfgurl", none)]

/-! # Helper lemmas -/

theorem fsHas_filter_ne (l : List String) (x : String) :
    fsHas (l.filter (fun p => p ≠ x)) x = false := by
  induction l with
  | nil => rfl
  | cons a t ih =>
      by_cases h : a = x
      · simpa [List.filter_cons, h] using ih
      · simpa [List.filter_cons, h, fsHas] using ih

theorem fsHas_filter_of_false (l : List String) (q : String → Bool) (x : String)
    (h : fsHas l x = false) : fsHas (l.filter q) x = false := by
  induction l with
  | nil => rfl
  | cons a t ih =>
      simp only [fsHas, List.any_cons, Bool.or_eq_false_iff] at h
      by_cases hq : q a
      · simpa [List.filter_cons, hq, fsHas, h.1] using ih h.2
      · simpa [List.filter_cons, hq] using ih h.2

theorem lookup_setOptIn_self (l : List (String × String)) (k v : String) :
    (setOptIn l k v).lookup k = some v := by
  induction l with
  | nil => simp [setOptIn, List.lookup]
  | cons a t ih =>
      obtain ⟨a1, a2⟩ := a
      by_cases h : a1 = k
      · subst h
        simp [setOptIn, List.lookup]
      · have hb : (k == a1) = false :=
          beq_eq_false_iff_ne.mpr (fun he => h he.symm)
        simp [setOptIn, h, List.lookup, hb, ih]

theorem lookup_setOptIn_ne (l : List (String × String)) (k v k' : String)
    (h : k' ≠ k) : (setOptIn l k v).lookup k' = l.lookup k' := by
  have hb : (k' == k) = false := beq_eq_false_iff_ne.mpr h
  induction l with
  | nil => simp [setOptIn, List.lookup, hb]
  | cons a t ih =>
      obtain ⟨a1, a2⟩ := a
      by_cases ha : a1 = k
      · subst ha
        simp [setOptIn, List.lookup, hb]
      · simp only [setOptIn, ha, if_false, List.lookup]
        cases hx : (k' == a1) <;> simp [hx, ih]

theorem lookup_purged (l : List (String × String)) (pre k : String)
    (hk : strStartsWith k pre = true) :
    (l.filter (fun f => !(strStartsWith f.1 pre))).lookup k = none := by
  induction l with
  | nil => rfl
  | cons a t ih =>
      obtain ⟨a1, a2⟩ := a
      by_cases h : strStartsWith a1 pre
      · simpa [List.filter_cons, h] using ih
      · have hb : (k == a1) = false := by
          apply beq_eq_false_iff_ne.mpr
          intro he
          rw [he] at hk
          rw [hk] at h
          exact h rfl
        simp [List.filter_cons, h, List.lookup, hb, ih]

theorem hasSection_remove (d : Doc) (x : String) :
    hasSection (removeSection d x) x = false := by
  induction d with
  | nil => rfl
  | cons a t ih =>
      by_cases h : a.1 = x
      · simpa [removeSection, List.filter_cons, h] using ih
      · simpa [removeSection, List.filter_cons, h, hasSection] using ih

theorem cleanupState_doc (s : St) :
    hasSection (cleanupState s).doc "state" = false := by
  unfold cleanupState
  by_cases h : hasSection s.doc "state"
  · simp [h, hasSection_remove]
  · simp [h]

theorem cleanupState_cfg (s : St) : (cleanupState s).cfg = s.cfg := by
  unfold cleanupState; split <;> rfl

theorem cleanupState_fs (s : St) : (cleanupState s).fs = s.fs := by
  unfold cleanupState; split <;> rfl

theorem cleanupState_trace (s : St) : (cleanupState s).trace = s.trace := by
  unfold cleanupState; split <;> rfl

theorem cleanupTar_cfg (s : St) : (cleanupTar s).cfg = s.cfg := by
  unfold cleanupTar; split <;> rfl

theorem cleanupTar_doc (s : St) : (cleanupTar s).doc = s.doc := by
  unfold cleanupTar; split <;> rfl

theorem cleanupTar_trace (s : St) : (cleanupTar s).trace = s.trace := by
  unfold cleanupTar; split <;> rfl

theorem cleanupTar_fs_spec (s : St) :
    (cleanupTar s).fs = (if truthy s.cfg.tarpkg then
      s.fs.filter (fun p => p ≠ pyStr s.cfg.tarpkg) else s.fs) := by
  unfold cleanupTar
  by_cases h : truthy s.cfg.tarpkg <;> simp [h]

theorem cleanupWipe_doc (s : St) : (cleanupWipe s).1.doc = s.doc := by
  unfold cleanupWipe
  split
  · split <;> rfl
  · rfl

theorem cleanupWipe_trace (s : St) : (cleanupWipe s).1.trace = s.trace := by
  unfold cleanupWipe
  split
  · split <;> rfl
  · rfl

theorem cleanupWipe_fs_false (s : St) (x : String)
    (h : fsHas s.fs x = false) : fsHas (cleanupWipe s).1.fs x = false := by
  unfold cleanupWipe
  split
  · split
    · simpa using fsHas_filter_of_false s.fs _ x h
    · simpa using h
  · simpa using h

@[simp] theorem stSave_retcode (s : St) (u : Cfg → Cfg)
    (us : List (String × Option String)) : (stSave s u us).retcode = s.retcode := rfl

@[simp] theorem stSave_files (s : St) (u : Cfg → Cfg)
    (us : List (String × Option String)) : (stSave s u us).files = s.files := rfl

@[simp] theorem stSave_trace (s : St) (u : Cfg → Cfg)
    (us : List (String × Option String)) : (stSave s u us).trace = s.trace := rfl

@[simp] theorem stSave_testcases (s : St) (u : Cfg → Cfg)
    (us : List (String × Option String)) :
    (stSave s u us).testcases = s.testcases := rfl

@[simp] theorem stSave_log (s : St) (u : Cfg → Cfg)
    (us : List (String × Option String)) : (stSave s u us).log = s.log := rfl

@[simp] theorem stSave_cfg (s : St) (u : Cfg → Cfg)
    (us : List (String × Option String)) : (stSave s u us).cfg = u s.cfg := rfl

@[simp] theorem setRc_retcode (s : St) (n : Nat) : (setRc s n).retcode = n := rfl

@[simp] theorem setRc_cfg (s : St) (n : Nat) : (setRc s n).cfg = s.cfg := rfl

@[simp] theorem setRc_files (s : St) (n : Nat) : (setRc s n).files = s.files := rfl

@[simp] theorem setRc_trace (s : St) (n : Nat) : (setRc s n).trace = s.trace := rfl

@[simp] theorem logError_retcode (s : St) (m : String) :
    (logError s m).retcode = s.retcode := rfl

@[simp] theorem logError_cfg (s : St) (m : String) :
    (logError s m).cfg = s.cfg := rfl

@[simp] theorem logError_files (s : St) (m : String) :
    (logError s m).files = s.files := rfl

@[simp] theorem logError_trace (s : St) (m : String) :
    (logError s m).trace = s.trace := rfl

@[simp] theorem addTrace_cfg (nm : String) (s : St) :
    (addTrace nm s).cfg = s.cfg := rfl

@[simp] theorem addTrace_retcode (nm : String) (s : St) :
    (addTrace nm s).retcode = s.retcode := rfl

@[simp] theorem addTrace_files (nm : String) (s : St) :
    (addTrace nm s).files = s.files := rfl

@[simp] theorem addTrace_trace (nm : String) (s : St) :
    (addTrace nm s).trace = s.trace ++ [nm] := rfl

@[simp] theorem purgeFiles_cfg (s : St) (pre : String) :
    (purgeFiles s pre).cfg = s.cfg := rfl

@[simp] theorem purgeFiles_retcode (s : St) (pre : String) :
    (purgeFiles s pre).retcode = s.retcode := rfl

@[simp] theorem purgeFiles_trace (s : St) (pre : String) :
    (purgeFiles s pre).trace = s.trace := rfl

@[simp] theorem reportResults_cfg (s : St) (a b c d : String) :
    (reportResults s a b c d).cfg = s.cfg := rfl

@[simp] theorem reportResults_retcode (s : St) (a b c d : String) :
    (reportResults s a b c d).retcode = s.retcode := rfl

@[simp] theorem reportResults_trace (s : St) (a b c d : String) :
    (reportResults s a b c d).trace = s.trace := rfl

@[simp] theorem reportResults_testcases (s : St) (a b c d : String) :
    (reportResults s a b c d).testcases = s.testcases := rfl

@[simp] theorem reportResults_files (s : St) (a b c d : String) :
    (reportResults s a b c d).files = setOptIn (setOptIn s.files a b) c d := rfl

@[simp] theorem purgeFiles_files (s : St) (pre : String) :
    (purgeFiles s pre).files =
      s.files.filter (fun f => !(strStartsWith f.1 pre)) := rfl

theorem runJobs_cfg (r : RunnerO) (l : List String) : ∀ (s : St) (i : Nat),
    (runJobs r l s i).cfg = s.cfg := by
  induction l with
  | nil => intro s i; rfl
  | cons j t ih =>
      intro s i
      simp only [runJobs]
      by_cases hw : s.cfg.wait ∧ truthy s.cfg.junit
      · simp only [hw, if_true]
        cases r.dumpjunit j <;> simp [ih]
      · simp only [hw, if_false]
        simp [ih]

theorem runJobs_files (r : RunnerO) (l : List String) : ∀ (s : St) (i : Nat),
    (runJobs r l s i).files = s.files := by
  induction l with
  | nil => intro s i; rfl
  | cons j t ih =>
      intro s i
      simp only [runJobs]
      by_cases hw : s.cfg.wait ∧ truthy s.cfg.junit
      · simp only [hw, if_true]
        cases r.dumpjunit j <;> simp [ih]
      · simp only [hw, if_false]
        simp [ih]

theorem runJobs_trace (r : RunnerO) (l : List String) : ∀ (s : St) (i : Nat),
    (runJobs r l s i).trace = s.trace := by
  induction l with
  | nil => intro s i; rfl
  | cons j t ih =>
      intro s i
      simp only [runJobs]
      by_cases hw : s.cfg.wait ∧ truthy s.cfg.junit
      · simp only [hw, if_true]
        cases r.dumpjunit j <;> simp [ih]
      · simp only [hw, if_false]
        simp [ih]

/-- The job loop either keeps the outcome it was entered with or degrades
it to exactly `SKT_ERROR` (on a result-translation fault). -/
theorem runJobs_retcode (r : RunnerO) (l : List String) : ∀ (s : St) (i : Nat),
    (runJobs r l s i).retcode = s.retcode ∨
    (runJobs r l s i).retcode = SKT_ERROR := by
  induction l with
  | nil => intro s i; exact Or.inl rfl
  | cons j t ih =>
      intro s i
      simp only [runJobs]
      by_cases hw : s.cfg.wait ∧ truthy s.cfg.junit
      · simp only [hw, if_true]
        cases r.dumpjunit j with
        | none => simpa using ih _ _
        | some f =>
            rcases ih (stSave (setRc (logError s (faultMsg f)) SKT_ERROR)
              (fun c => c) [("jobid_" ++ toString i, some j)]) (i + 1) with h | h
            · exact Or.inr (by simpa using h)
            · exact Or.inr h
      · simp only [hw, if_false]
        simpa using ih _ _

/-- Once the outcome is in the ERROR tier, no later loop iteration brings
it back below. -/
theorem runJobs_rc_ge (r : RunnerO) (l : List String) (s : St) (i : Nat)
    (h : SKT_ERROR ≤ s.retcode) : SKT_ERROR ≤ (runJobs r l s i).retcode := by
  rcases runJobs_retcode r l s i with he | he <;> rw [he]
  exact h

/-- Full characterisation of a `cmd_run` body execution whose runner call
returns an outcome code: it never raises, its final outcome is the runner's
code or exactly `SKT_ERROR`, and the artifact pair is present after the
execution precisely when the final outcome is not exactly `SKT_ERROR`. -/
theorem cmdRunBody_spec (r : RunnerO) (s : St) (q : String × String)
    (code : Nat) (hq : s.cfg.runner = some q) (hcode : r.runResult = .ok code) :
    (cmdRunBody r s).2 = none ∧
    ((cmdRunBody r s).1.retcode = code ∨
      (cmdRunBody r s).1.retcode = SKT_ERROR) ∧
    ((cmdRunBody r s).1.retcode ≠ SKT_ERROR →
      (cmdRunBody r s).1.files.lookup "run.result" =
        some (if (cmdRunBody r s).1.retcode ≠ 0 then "true" else "false") ∧
      (cmdRunBody r s).1.files.lookup "run.report" = some "") ∧
    ((cmdRunBody r s).1.retcode = SKT_ERROR →
      (cmdRunBody r s).1.files.lookup "run.result" = none ∧
      (cmdRunBody r s).1.files.lookup "run.report" = none) := by
  have hq' : (purgeFiles (addTrace "cmd_run" s) "run.").cfg.runner = some q := by
    simpa using hq
  simp only [cmdRunBody, hq', hcode]
  set s3 := runJobs r r.jobs
    (setRc (purgeFiles (addTrace "cmd_run" s) "run.") code) 0 with hs3
  have hrc := runJobs_retcode r r.jobs
    (setRc (purgeFiles (addTrace "cmd_run" s) "run.") code) 0
  have hfl := runJobs_files r r.jobs
    (setRc (purgeFiles (addTrace "cmd_run" s) "run.") code) 0
  rw [← hs3] at hrc hfl
  simp only [setRc_retcode, setRc_files] at hrc hfl
  by_cases herr : s3.retcode = SKT_ERROR
  · simp only [stSave_retcode, stSave_files, herr, ne_eq, not_true_eq_false,
      if_false]
    refine ⟨trivial, Or.inr (by simp), by simp, fun hx => ?_⟩
    constructor
    · simp only [stSave_files, hfl]
      exact lookup_purged s.files "run." "run.result" (by decide)
    · simp only [stSave_files, hfl]
      exact lookup_purged s.files "run." "run.report" (by decide)
  · simp only [stSave_retcode, stSave_files, herr, ne_eq, not_false_eq_true,
      if_true]
    refine ⟨trivial, by simpa using hrc, fun hx => ?_,
      fun hcon => absurd (by simpa using hcon) herr⟩
    constructor
    · simp only [reportResults_files, stSave_files]
      rw [lookup_setOptIn_ne _ _ _ _ (by decide), lookup_setOptIn_self]
      simp
    · simp only [reportResults_files, stSave_files]
      rw [lookup_setOptIn_self]

/-- With a truthy JUnit directory the wrapper never re-raises. -/
theorem junitWrap_none (nm : String) (f : St → St × Option Fault) (s : St)
    (hj : truthy s.cfg.junit = true) : (junitWrap nm f s).2 = none := by
  simp only [junitWrap, hj, if_true]

theorem docItems_of_not_hasSection (d : Doc) (s : String)
    (h : hasSection d s = false) : docItems d s = [] := by
  have hf : d.find? (fun sec => sec.1 = s) = none := by
    rw [List.find?_eq_none]
    intro x hx hpx
    rw [hasSection, List.any_eq_false] at h
    exact h x hx hpx
  simp [docItems, hf]

theorem hasSection_setOpt (d : Doc) (s k v s' : String) :
    hasSection (setOpt d s k v) s' = hasSection d s' := by
  induction d with
  | nil => rfl
  | cons sec t ih =>
      by_cases h : sec.1 = s <;>
        simpa [setOpt, hasSection, h, List.any_cons] using
          congrArg (fun b => (decide (sec.1 = s') || b)) ih

theorem docItems_setOpt_self (d : Doc) (s k v : String) :
    docItems (setOpt d s k v) s =
      if hasSection d s = true then setOptIn (docItems d s) (strToLower k) v
      else docItems d s := by
  induction d with
  | nil => rfl
  | cons sec t ih =>
      by_cases h : sec.1 = s
      · simp [setOpt, docItems, hasSection, h, List.find?_cons, List.any_cons]
      · have hmap : setOpt (sec :: t) s k v = sec :: setOpt t s k v := by
          simp [setOpt, h]
        have hd : docItems (sec :: setOpt t s k v) s =
            docItems (setOpt t s k v) s := by
          simp [docItems, List.find?_cons, h]
        have hd2 : docItems (sec :: t) s = docItems t s := by
          simp [docItems, List.find?_cons, h]
        have hh : hasSection (sec :: t) s = hasSection t s := by
          simp [hasSection, List.any_cons, h]
        rw [hmap, hd, hd2, hh]
        exact ih

theorem lookupOpt_setOpt_self (d : Doc) (k v : String)
    (hs : hasSection d "state" = true) :
    lookupOpt (setOpt d "state" k v) "state" (strToLower k) = some v := by
  unfold lookupOpt
  rw [docItems_setOpt_self, if_pos hs, lookup_setOptIn_self]

theorem lookupOpt_setOpt_ne (d : Doc) (k v k' : String)
    (hk : k' ≠ strToLower k) :
    lookupOpt (setOpt d "state" k v) "state" k' = lookupOpt d "state" k' := by
  unfold lookupOpt
  rw [docItems_setOpt_self]
  by_cases hs : hasSection d "state" = true
  · rw [if_pos hs, lookup_setOptIn_ne _ _ _ _ hk]
  · rw [if_neg hs]

theorem writeStep_hasSection (d : Doc) (u : String × Option String)
    (s' : String) : hasSection (writeStateOpt d u) s' = hasSection d s' := by
  cases hu : u.2 with
  | none => simp [writeStateOpt, hu]
  | some w => simp [writeStateOpt, hu, hasSection_setOpt]

theorem writeFold_hasSection (us : List (String × Option String)) :
    ∀ (d : Doc) (s' : String),
    hasSection (us.foldl writeStateOpt d) s' = hasSection d s' := by
  induction us with
  | nil => intro d s'; rfl
  | cons u t ih =>
      intro d s'
      rw [List.foldl_cons, ih, writeStep_hasSection]

theorem writeFold_preserve (us : List (String × Option String)) :
    ∀ (d : Doc) (k' : String),
    (∀ u ∈ us, u.2 = none ∨ strToLower u.1 ≠ k') →
    lookupOpt (us.foldl writeStateOpt d) "state" k' =
      lookupOpt d "state" k' := by
  induction us with
  | nil => intro d k' _; rfl
  | cons u t ih =>
      intro d k' hall
      rw [List.foldl_cons, ih _ _ (fun x hx => hall x (List.mem_cons_of_mem _ hx))]
      rcases hall u (List.mem_cons_self _ _) with h | h
      · simp [writeStateOpt, h]
      · cases hu : u.2 with
        | none => simp [writeStateOpt, hu]
        | some w =>
            simp only [writeStateOpt, hu]
            exact lookupOpt_setOpt_ne _ _ _ _ (fun he => h he.symm)

theorem writeFold_some (us : List (String × Option String)) : ∀ (d : Doc),
    hasSection d "state" = true →
    ((us.map (fun u => strToLower u.1)).Nodup) →
    ∀ k v, (k, some v) ∈ us →
    lookupOpt (us.foldl writeStateOpt d) "state" (strToLower k) = some v := by
  induction us with
  | nil => intro d _ _ k v h; exact absurd h (List.not_mem_nil _)
  | cons u t ih =>
      intro d hs hnd k v hmem
      rw [List.map_cons, List.nodup_cons] at hnd
      rw [List.foldl_cons]
      rcases List.mem_cons.mp hmem with he | ht
      · have hall : ∀ x ∈ t, x.2 = none ∨ strToLower x.1 ≠ strToLower k := by
          intro x hx
          refine Or.inr fun hcon => hnd.1 ?_
          rw [← he]
          rw [← hcon]
          exact List.mem_map_of_mem (fun u => strToLower u.1) hx
        rw [writeFold_preserve t _ _ hall, ← he]
        exact lookupOpt_setOpt_self d k v hs
      · exact ih (writeStateOpt d u) (by rw [writeStep_hasSection]; exact hs)
          hnd.2 k v ht

theorem setOptIn_keys (l : List (String × String)) (k v : String) :
    (setOptIn l k v).map Prod.fst =
      if k ∈ l.map Prod.fst then l.map Prod.fst
      else l.map Prod.fst ++ [k] := by
  induction l with
  | nil => simp [setOptIn]
  | cons a t ih =>
      by_cases h : a.1 = k
      · simp [setOptIn, h]
      · rw [show setOptIn (a :: t) k v = a :: setOptIn t k v by
          simp [setOptIn, h]]
        rw [List.map_cons, ih, List.map_cons]
        by_cases hm : k ∈ t.map Prod.fst
        · simp [hm, List.mem_cons]
        · simp [hm, List.mem_cons, h, Ne.symm h]

theorem setOptIn_keys_nodup (l : List (String × String)) (k v : String)
    (h : (l.map Prod.fst).Nodup) :
    ((setOptIn l k v).map Prod.fst).Nodup := by
  rw [setOptIn_keys]
  by_cases hm : k ∈ l.map Prod.fst
  · rw [if_pos hm]
    exact h
  · rw [if_neg hm]
    rw [List.nodup_append]
    exact ⟨h, List.nodup_singleton k,
      fun a ha hb => hm (by rwa [List.mem_singleton.mp hb] at ha)⟩

theorem writeFold_keys_nodup (us : List (String × Option String)) :
    ∀ (d : Doc), ((docItems d "state").map Prod.fst).Nodup →
    ((docItems (us.foldl writeStateOpt d) "state").map Prod.fst).Nodup := by
  induction us with
  | nil => intro d h; exact h
  | cons u t ih =>
      intro d h
      rw [List.foldl_cons]
      apply ih
      cases hu : u.2 with
      | none => simpa [writeStateOpt, hu] using h
      | some w =>
          simp only [writeStateOpt, hu]
          rw [docItems_setOpt_self]
          by_cases hs : hasSection d "state" = true
          · rw [if_pos hs]
            exact setOptIn_keys_nodup _ _ _ h
          · rw [if_neg hs]
            exact h

/-- Outside the guard name, `loadItem` leaves the scalar map unchanged. -/
theorem loadItem_base (c : LCfg) (n v k : String)
    (hg : truthy (c.base n) = false) (hk : k ≠ n) :
    (loadItem c (n, v)).base k = c.base k := by
  simp only [loadItem, hg, Bool.false_eq_true, if_false]
  show (if k = n then some v else _) = _
  rw [if_neg hk]
  split
  · rfl
  · split
    · rfl
    · split
      · rfl
      · split
        · rfl
        · split <;> rfl

/-- `loadItem` leaves the scalar map unchanged at other names, whatever the
guard. -/
theorem loadItem_base_ne (c : LCfg) (n v k : String) (hk : k ≠ n) :
    (loadItem c (n, v)).base k = c.base k := by
  cases hg : truthy (c.base n)
  · exact loadItem_base c n v k hg hk
  · simp [loadItem, hg]

theorem loadItem_base_self (c : LCfg) (n v : String)
    (hg : truthy (c.base n) = false) :
    (loadItem c (n, v)).base n = some v := by
  simp [loadItem, hg]

theorem loadStateSection_base_not_mem (its : List (String × String)) :
    ∀ (c : LCfg) (k : String), k ∉ its.map Prod.fst →
    (loadStateSection c its).base k = c.base k := by
  induction its with
  | nil => intro c k _; rfl
  | cons nv t ih =>
      intro c k hk
      obtain ⟨n, w⟩ := nv
      rw [List.map_cons, List.mem_cons] at hk
      push_neg at hk
      rw [show loadStateSection c ((n, w) :: t) =
        loadStateSection (loadItem c (n, w)) t from rfl]
      rw [ih _ _ hk.2]
      exact loadItem_base_ne c n w k hk.1

theorem loadStateSection_base_lookup (its : List (String × String)) :
    ∀ (c : LCfg), (∀ nv ∈ its, c.base nv.1 = none) →
    ((its.map Prod.fst).Nodup) →
    ∀ k v, its.lookup k = some v → (loadStateSection c its).base k = some v := by
  induction its with
  | nil =>
      intro c _ _ k v h
      exact Option.noConfusion h
  | cons nv t ih =>
      intro c hfresh hnd k v hlk
      obtain ⟨n, w⟩ := nv
      rw [List.map_cons, List.nodup_cons] at hnd
      rw [show loadStateSection c ((n, w) :: t) =
        loadStateSection (loadItem c (n, w)) t from rfl]
      by_cases he : k = n
      · subst he
        have hw : w = v := by
          simpa [List.lookup] using hlk
        subst hw
        rw [loadStateSection_base_not_mem t _ k hnd.1]
        exact loadItem_base_self c k w (by
          rw [hfresh (k, w) (List.mem_cons_self _ _)]; rfl)
      · have hlk' : t.lookup k = some v := by
          simpa [List.lookup, beq_eq_false_iff_ne.mpr he] using hlk
        apply ih
        · intro nv' hm
          have hne : nv'.1 ≠ n := by
            intro hcon
            apply hnd.1
            rw [← hcon]
            exact List.mem_map.mpr ⟨nv', hm, rfl⟩
          rw [loadItem_base_ne c n w nv'.1 hne]
          exact hfresh nv' (List.mem_cons_of_mem _ hm)
        · exact hnd.2
        · exact hlk'

theorem hasSection_addSection (d : Doc) (s : String) :
    hasSection (addSection d s) s = true := by
  simp [hasSection, addSection, List.any_append]

theorem docItems_addSection (d : Doc) (s : String)
    (h : hasSection d s = false) :
    docItems (addSection d s) s = [] := by
  induction d with
  | nil => simp [addSection, docItems, List.find?]
  | cons sec t ih =>
      rw [hasSection, List.any_cons, Bool.or_eq_false_iff] at h
      have hsec : ¬ sec.1 = s := by simpa using h.1
      have ht := ih h.2
      simpa [addSection, docItems, List.find?_cons, hsec, List.cons_append]
        using ht

theorem mcfgFold_not_mem (us : List (String × Option String)) :
    ∀ (c : MCfg) (k : String), (∀ u ∈ us, u.1 ≠ k) →
    (us.foldl (fun c kv => mcfgSet c kv.1 kv.2) c) k = c k := by
  induction us with
  | nil => intro c k _; rfl
  | cons u t ih =>
      intro c k hall
      rw [List.foldl_cons, ih _ _ (fun x hx => hall x (List.mem_cons_of_mem _ hx))]
      simp [mcfgSet, Ne.symm (hall u (List.mem_cons_self _ _))]

theorem mcfgFold_mem (us : List (String × Option String)) :
    ∀ (c : MCfg) (k : String) (w : Option String),
    ((us.map Prod.fst).Nodup) → (k, w) ∈ us →
    (us.foldl (fun c kv => mcfgSet c kv.1 kv.2) c) k = w := by
  induction us with
  | nil => intro c k w _ h; exact absurd h (List.not_mem_nil _)
  | cons u t ih =>
      intro c k w hnd hmem
      rw [List.map_cons, List.nodup_cons] at hnd
      rw [List.foldl_cons]
      rcases List.mem_cons.mp hmem with he | ht
      · have hnm : ∀ x ∈ t, x.1 ≠ k := by
          intro x hx hcon
          apply hnd.1
          rw [← he]
          show k ∈ _
          rw [← hcon]
          exact List.mem_map_of_mem Prod.fst hx
        rw [mcfgFold_not_mem t _ _ hnm, ← he]
        simp [mcfgSet]
      · exact ih _ k w hnd.2 ht

/-- The five numbered key families are mutually exclusive prefixes: a name
starting with one cannot start with another. -/
theorem strStartsWith_excl (n p1 p2 : String)
    (h12 : p1.data.isPrefixOf p2.data = false)
    (h21 : p2.data.isPrefixOf p1.data = false)
    (h1 : strStartsWith n p1 = true) : strStartsWith n p2 = false := by
  cases hx : strStartsWith n p2
  · rfl
  · exfalso
    have hp1 : p1.data <+: n.data := List.isPrefixOf_iff_prefix.mp h1
    have hp2 : p2.data <+: n.data := List.isPrefixOf_iff_prefix.mp hx
    rcases List.prefix_or_prefix_of_prefix hp1 hp2 with h | h
    · rw [List.isPrefixOf_iff_prefix.mpr h] at h12
      exact Bool.noConfusion h12
    · rw [List.isPrefixOf_iff_prefix.mpr h] at h21
      exact Bool.noConfusion h21

theorem famVals_cons (pre : String) (nv : String × String)
    (t : List (String × String)) :
    famVals pre (nv :: t) =
      if strStartsWith nv.1 pre then nv.2 :: famVals pre t
      else famVals pre t := by
  by_cases h : strStartsWith nv.1 pre <;> simp [famVals, List.filter_cons, h]

theorem appList_some (xs l : List String) :
    appList (some xs) l = some (xs ++ l) := by
  induction l generalizing xs with
  | nil => simp [appList]
  | cons v t ih => simp [appList, ih]

theorem appList_none (l : List String) :
    appList none l = if l = [] then none else some l := by
  cases l with
  | nil => rfl
  | cons v t => simp [appList, appList_some]

theorem appJobs_some (x : Finset String) (l : List String) :
    appJobs (some x) l = some (l.foldl (fun t v => insert v t) x) := by
  induction l generalizing x with
  | nil => rfl
  | cons v t ih => simp [appJobs, ih, List.foldl]

theorem appJobs_none (l : List String) :
    appJobs none l =
      if l = [] then none
      else some (l.foldl (fun t v => insert v t) ∅) := by
  cases l with
  | nil => rfl
  | cons v t => simp [appJobs, appJobs_some, List.foldl]

/-- Aggregate characterisation of the state-section loop: starting from a
configuration in which none of the item names is truthy, each family
aggregate accumulates exactly that family's values in document order (as a
list append for the four list families, as set insertion for `jobid_`). -/
theorem loadStateSection_aggs (its : List (String × String)) : ∀ (c : LCfg),
    (∀ nv ∈ its, c.base nv.1 = none) → ((its.map Prod.fst).Nodup) →
    (loadStateSection c its).mergerepos =
      appList c.mergerepos (famVals "mergerepo_" its) ∧
    (loadStateSection c its).mergeheads =
      appList c.mergeheads (famVals "mergehead_" its) ∧
    (loadStateSection c its).localpatches =
      appList c.localpatches (famVals "localpatch_" its) ∧
    (loadStateSection c its).patchworks =
      appList c.patchworks (famVals "patchwork_" its) ∧
    (loadStateSection c its).jobs = appJobs c.jobs (famVals "jobid_" its) := by
  induction its with
  | nil => exact fun c _ _ => ⟨rfl, rfl, rfl, rfl, rfl⟩
  | cons nv t ih =>
      intro c hfresh hnd
      obtain ⟨n, v⟩ := nv
      have hguard : truthy (c.base n) = false := by
        rw [hfresh (n, v) (List.mem_cons_self _ _)]
        rfl
      have hnmem : n ∉ t.map Prod.fst := by
        rw [List.map_cons, List.nodup_cons] at hnd
        exact hnd.1
      have hnd' : (t.map Prod.fst).Nodup := by
        rw [List.map_cons, List.nodup_cons] at hnd
        exact hnd.2
      have hfresh' : ∀ nv' ∈ t, (loadItem c (n, v)).base nv'.1 = none := by
        intro nv' hmem
        have hne : nv'.1 ≠ n := by
          intro he
          exact hnmem (he ▸ List.mem_map_of_mem Prod.fst hmem)
        rw [loadItem_base c n v nv'.1 hguard hne]
        exact hfresh nv' (List.mem_cons_of_mem _ hmem)
      have hstep : loadStateSection c ((n, v) :: t) =
          loadStateSection (loadItem c (n, v)) t := rfl
      have ihc := ih (loadItem c (n, v)) hfresh' hnd'
      rw [hstep]
      rcases ihc with ⟨i1, i2, i3, i4, i5⟩
      rw [i1, i2, i3, i4, i5]
      by_cases hj : strStartsWith n "jobid_"
      · have e1 := strStartsWith_excl n "jobid_" "mergerepo_"
          (by decide) (by decide) hj
        have e2 := strStartsWith_excl n "jobid_" "mergehead_"
          (by decide) (by decide) hj
        have e3 := strStartsWith_excl n "jobid_" "localpatch_"
          (by decide) (by decide) hj
        have e4 := strStartsWith_excl n "jobid_" "patchwork_"
          (by decide) (by decide) hj
        simp only [loadItem, hguard, Bool.false_eq_true, if_false, hj, if_true,
          famVals_cons, e1, e2, e3, e4]
        refine ⟨?_, ?_, ?_, ?_, ?_⟩ <;> trivial
      · by_cases h1 : strStartsWith n "mergerepo_"
        · have e2 := strStartsWith_excl n "mergerepo_" "mergehead_"
            (by decide) (by decide) h1
          have e3 := strStartsWith_excl n "mergerepo_" "localpatch_"
            (by decide) (by decide) h1
          have e4 := strStartsWith_excl n "mergerepo_" "patchwork_"
            (by decide) (by decide) h1
          simp only [loadItem, hguard, Bool.false_eq_true, if_false, hj, h1,
            if_true, famVals_cons, e2, e3, e4]
          refine ⟨?_, ?_, ?_, ?_, ?_⟩ <;> trivial
        · by_cases h2 : strStartsWith n "mergehead_"
          · have e3 := strStartsWith_excl n "mergehead_" "localpatch_"
              (by decide) (by decide) h2
            have e4 := strStartsWith_excl n "mergehead_" "patchwork_"
              (by decide) (by decide) h2
            simp only [loadItem, hguard, Bool.false_eq_true, if_false, hj, h1,
              h2, if_true, famVals_cons, e3, e4]
            refine ⟨?_, ?_, ?_, ?_, ?_⟩ <;> trivial
          · by_cases h3 : strStartsWith n "localpatch_"
            · have e4 := strStartsWith_excl n "localpatch_" "patchwork_"
                (by decide) (by decide) h3
              simp only [loadItem, hguard, Bool.false_eq_true, if_false, hj,
                h1, h2, h3, if_true, famVals_cons, e4]
              refine ⟨?_, ?_, ?_, ?_, ?_⟩ <;> trivial
            · by_cases h4 : strStartsWith n "patchwork_"
              · simp only [loadItem, hguard, Bool.false_eq_true, if_false, hj,
                  h1, h2, h3, h4, if_true, famVals_cons]
                refine ⟨?_, ?_, ?_, ?_, ?_⟩ <;> trivial
              · simp only [loadItem, hguard, Bool.false_eq_true, if_false, hj,
                  h1, h2, h3, h4, famVals_cons]
                refine ⟨?_, ?_, ?_, ?_, ?_⟩ <;> trivial

theorem reportResults_lookup (s : St) (a b c d : String) (hne : c ≠ a) :
    ((reportResults s a b c d).files.lookup a = some b) ∧
    ((reportResults s a b c d).files.lookup c = some d) := by
  constructor
  · rw [reportResults_files, lookup_setOptIn_ne _ _ _ _ (Ne.symm hne),
      lookup_setOptIn_self]
  · rw [reportResults_files, lookup_setOptIn_self]


theorem mergeRefLoop_raised (o : KTreeO) (l : List (String × Option String)) :
    ∀ (s : St) (bh rs : String) (i : Nat) (ut : List String) (s' : St)
      (f : Fault), mergeRefLoop o l s bh rs i ut = (s', .raised f) →
      s'.files = s.files ∧ gitErrorStops o l = false := by
  induction l with
  | nil =>
      intro s bh rs i ut s' f h
      rw [mergeRefLoop, Prod.mk.injEq] at h
      exact absurd h.2 (by intro hc; exact MergeCtl.noConfusion hc)
  | cons mb t ih =>
      intro s bh rs i ut s' f h
      rw [mergeRefLoop] at h
      cases hg : o.mergeGitRef mb.1 mb.2 with
      | error f' =>
          rw [hg] at h
          rw [Prod.mk.injEq] at h
          obtain ⟨h1, h2⟩ := h
          subst h1
          simp [gitErrorStops, hg]
      | ok cb =>
          obtain ⟨code, bh'⟩ := cb
          rw [hg] at h
          dsimp only at h
          by_cases hc : code ≠ 0
          · rw [if_pos hc] at h
            by_cases he : code ≠ SKT_ERROR
            · rw [if_pos he] at h
              rw [Prod.mk.injEq] at h
              exact absurd h.2 (by intro hx; exact MergeCtl.noConfusion hx)
            · rw [if_neg he] at h
              rw [Prod.mk.injEq] at h
              exact absurd h.2 (by intro hx; exact MergeCtl.noConfusion hx)
          · rw [if_neg hc] at h
            have := ih _ _ _ _ _ _ _ h
            constructor
            · rw [this.1]
              simp
            · push_neg at hc
              simp [gitErrorStops, hg, hc, this.2]

theorem mergeRefLoop_finished (o : KTreeO) (l : List (String × Option String)) :
    ∀ (s : St) (bh rs : String) (i : Nat) (ut : List String) (s' : St)
      (b r : String) (ii : Nat) (u : List String),
      mergeRefLoop o l s bh rs i ut = (s', .finished b r ii u) →
      s'.files = s.files ∧ gitErrorStops o l = false := by
  induction l with
  | nil =>
      intro s bh rs i ut s' b r ii u h
      rw [mergeRefLoop, Prod.mk.injEq] at h
      obtain ⟨h1, _⟩ := h
      subst h1
      exact ⟨rfl, rfl⟩
  | cons mb t ih =>
      intro s bh rs i ut s' b r ii u h
      rw [mergeRefLoop] at h
      cases hg : o.mergeGitRef mb.1 mb.2 with
      | error f' =>
          rw [hg, Prod.mk.injEq] at h
          exact absurd h.2 (by intro hx; exact MergeCtl.noConfusion hx)
      | ok cb =>
          obtain ⟨code, bh'⟩ := cb
          rw [hg] at h
          dsimp only at h
          by_cases hc : code ≠ 0
          · rw [if_pos hc] at h
            by_cases he : code ≠ SKT_ERROR
            · rw [if_pos he, Prod.mk.injEq] at h
              exact absurd h.2 (by intro hx; exact MergeCtl.noConfusion hx)
            · rw [if_neg he, Prod.mk.injEq] at h
              exact absurd h.2 (by intro hx; exact MergeCtl.noConfusion hx)
          · rw [if_neg hc] at h
            have := ih _ _ _ _ _ _ _ _ _ _ h
            constructor
            · rw [this.1]
              simp
            · push_neg at hc
              simp [gitErrorStops, hg, hc, this.2]

theorem mergeRefLoop_early (o : KTreeO) (l : List (String × Option String)) :
    ∀ (s : St) (bh rs : String) (i : Nat) (ut : List String) (s' : St),
      mergeRefLoop o l s bh rs i ut = (s', .earlyReturn) →
      (gitErrorStops o l = true → s'.files = s.files) ∧
      (gitErrorStops o l = false →
        s'.files.lookup "merge.result" = some "false" ∧
        (s'.files.lookup "merge.report").isSome = true) := by
  induction l with
  | nil =>
      intro s bh rs i ut s' h
      rw [mergeRefLoop, Prod.mk.injEq] at h
      exact absurd h.2 (by intro hx; exact MergeCtl.noConfusion hx)
  | cons mb t ih =>
      intro s bh rs i ut s' h
      rw [mergeRefLoop] at h
      cases hg : o.mergeGitRef mb.1 mb.2 with
      | error f' =>
          rw [hg, Prod.mk.injEq] at h
          exact absurd h.2 (by intro hx; exact MergeCtl.noConfusion hx)
      | ok cb =>
          obtain ⟨code, bh'⟩ := cb
          rw [hg] at h
          dsimp only at h
          by_cases hc : code ≠ 0
          · rw [if_pos hc] at h
            by_cases he : code ≠ SKT_ERROR
            · rw [if_pos he, Prod.mk.injEq] at h
              obtain ⟨h1, _⟩ := h
              subst h1
              constructor
              · intro hgs
                rw [gitErrorStops, hg] at hgs
                dsimp only at hgs
                rw [if_pos hc] at hgs
                exact absurd (of_decide_eq_true hgs) he
              · intro _
                exact ⟨(reportResults_lookup _ _ _ _ _ (by decide)).1, by
                  rw [(reportResults_lookup _ _ _ _ _ (by decide)).2]; rfl⟩
            · rw [if_neg he, Prod.mk.injEq] at h
              obtain ⟨h1, _⟩ := h
              subst h1
              constructor
              · intro _
                simp
              · intro hgs
                rw [gitErrorStops, hg] at hgs
                dsimp only at hgs
                rw [if_pos hc] at hgs
                push_neg at he
                rw [decide_eq_true he] at hgs
                exact Bool.noConfusion hgs
          · rw [if_neg hc] at h
            have := ih _ _ _ _ _ _ h
            push_neg at hc
            constructor
            · intro hgs
              rw [gitErrorStops, hg] at hgs
              dsimp only at hgs
              simp only [hc, ne_eq, not_true_eq_false, if_false] at hgs
              rw [this.1 hgs]
              simp
            · intro hgs
              rw [gitErrorStops, hg] at hgs
              dsimp only at hgs
              simp only [hc, ne_eq, not_true_eq_false, if_false] at hgs
              exact this.2 hgs

theorem reportResults_present (s : St) (a b c d : String) (hne : c ≠ a) :
    (reportResults s a b c d).files.lookup a = some b ∧
    (reportResults s a b c d).files.lookup c = some d ∧
    ((reportResults s a b c d).files.lookup a).isSome = true ∧
    ((reportResults s a b c d).files.lookup c).isSome = true := by
  have h1 : (reportResults s a b c d).files.lookup a = some b := by
    rw [reportResults_files, lookup_setOptIn_ne _ _ _ _ (Ne.symm hne),
      lookup_setOptIn_self]
  have h2 : (reportResults s a b c d).files.lookup c = some d := by
    rw [reportResults_files, lookup_setOptIn_self]
  refine ⟨h1, h2, ?_, ?_⟩
  · rw [h1]; rfl
  · rw [h2]; rfl

theorem patchLoop_files (m : String → Option Fault) (kb : String)
    (lo : String → String) (l : List String) :
    ∀ (s : St) (rs : String) (i : Nat),
    (patchLoop m kb lo l s rs i).1.files = s.files := by
  induction l with
  | nil => intro s rs i; rfl
  | cons p t ih =>
      intro s rs i
      rw [patchLoop]
      cases m p <;> simp [ih]

theorem mergeSuccessTail_spec (o : KTreeO) (s : St) (ut : List String)
    (rs : String) :
    (mergeSuccessTail o s ut rs).2 = none ∧
    ((mergeSuccessTail o s ut rs).1.files.lookup "merge.result").isSome = true ∧
    ((mergeSuccessTail o s ut rs).1.files.lookup "merge.report").isSome
      = true := by
  exact ⟨rfl, (reportResults_present _ _ _ _ _ (by decide)).2.2.1,
    (reportResults_present _ _ _ _ _ (by decide)).2.2.2⟩

theorem mergeFaultHandler_patch (o : KTreeO) (s : St) (rs m : String) :
    (mergeFaultHandler o s rs (.patchApplication m)).2 = none ∧
    ((mergeFaultHandler o s rs (.patchApplication m)).1.files.lookup
      "merge.result").isSome = true ∧
    ((mergeFaultHandler o s rs (.patchApplication m)).1.files.lookup
      "merge.report").isSome = true := by
  exact ⟨rfl, (reportResults_present _ _ _ _ _ (by decide)).2.2.1,
    (reportResults_present _ _ _ _ _ (by decide)).2.2.2⟩

theorem cmdMergeBody_files (o : KTreeO) (pn : String → String) (s : St)
    (s' : St) (h : cmdMergeBody o pn s = (s', none)) :
    (((s'.files.lookup "merge.result").isSome = true ∧
      (s'.files.lookup "merge.report").isSome = true) ↔
     ¬(s.cfg.mergeRef ≠ [] ∧ gitErrorStops o s.cfg.mergeRef = true)) := by
  rw [cmdMergeBody] at h
  cases hck : o.checkout with
  | error f =>
      rw [hck] at h
      rw [Prod.mk.injEq] at h
      exact absurd h.2 (by simp)
  | ok bh0 =>
      rw [hck] at h
      dsimp only at h
      simp only [purgeFiles_cfg, stSave_cfg, addTrace_cfg] at h
      split at h
      · -- merge-ref mode
        rename_i hmr
        split at h
        · -- raised
          rename_i s3 f heq
          have hl := mergeRefLoop_raised o s.cfg.mergeRef _ _ _ _ _ _ _ heq
          cases f with
          | patchApplication m =>
              rw [Prod.mk.injEq] at h
              rw [← h.1]
              apply iff_of_true
              · exact ⟨(mergeFaultHandler_patch o s3 _ m).2.1,
                  (mergeFaultHandler_patch o s3 _ m).2.2⟩
              · intro hcon
                rw [hl.2] at hcon
                exact Bool.noConfusion hcon.2
          | exc m =>
              rw [show mergeFaultHandler o s3 _ (Fault.exc m)
                = (s3, some (Fault.exc m)) from rfl, Prod.mk.injEq] at h
              exact absurd h.2 (by simp)
          | buildClassified m =>
              rw [show mergeFaultHandler o s3 _ (Fault.buildClassified m)
                = (s3, some (Fault.buildClassified m)) from rfl,
                Prod.mk.injEq] at h
              exact absurd h.2 (by simp)
        · -- earlyReturn
          rename_i s3 heq
          have hl := mergeRefLoop_early o s.cfg.mergeRef _ _ _ _ _ _ heq
          rw [Prod.mk.injEq] at h
          rw [← h.1]
          cases hgs : gitErrorStops o s.cfg.mergeRef with
          | true =>
              apply iff_of_false
              · have hfil := hl.1 hgs
                rw [hfil]
                simp only [purgeFiles_files, stSave_files, addTrace_files]
                rw [lookup_purged s.files "merge." "merge.result" (by decide)]
                simp
              · simp [hmr, hgs]
          | false =>
              apply iff_of_true
              · refine ⟨?_, (hl.2 hgs).2⟩
                rw [(hl.2 hgs).1]
                rfl
              · simp [hgs]
        · -- finished
          rename_i s3 b r ii u heq
          have hl := mergeRefLoop_finished o s.cfg.mergeRef _ _ _ _ _ _ _ _ _ _ heq
          rw [Prod.mk.injEq] at h
          rw [← h.1]
          apply iff_of_true
          · exact ⟨(mergeSuccessTail_spec o s3 u r).2.1,
              (mergeSuccessTail_spec o s3 u r).2.2⟩
          · simp [hl.2]
      · -- no merge-ref mode: RHS is trivially true
        rename_i hmr
        have hrhs : ¬(s.cfg.mergeRef ≠ [] ∧
            gitErrorStops o s.cfg.mergeRef = true) := fun hc => hmr hc.1
        apply iff_of_true ?_ hrhs
        split at h
        · -- patch/pw mode
          rename_i hp
          split at h
          · -- the patch loop (local or patchwork) stopped with a fault
            rename_i f heq
            cases f with
            | patchApplication m =>
                rw [Prod.mk.injEq] at h
                rw [← h.1]
                exact ⟨(mergeFaultHandler_patch o _ _ m).2.1,
                  (mergeFaultHandler_patch o _ _ m).2.2⟩
            | exc m =>
                rw [show mergeFaultHandler o _ _ (Fault.exc m)
                  = (_, some (Fault.exc m)) from rfl, Prod.mk.injEq] at h
                exact absurd h.2 (by simp)
            | buildClassified m =>
                rw [show mergeFaultHandler o _ _ (Fault.buildClassified m)
                  = (_, some (Fault.buildClassified m)) from rfl,
                  Prod.mk.injEq] at h
                exact absurd h.2 (by simp)
          · -- all patches applied: success tail
            rename_i heq
            rw [Prod.mk.injEq] at h
            rw [← h.1]
            exact ⟨(mergeSuccessTail_spec o _ _ _).2.1,
              (mergeSuccessTail_spec o _ _ _).2.2⟩
        · -- baseline
          rw [Prod.mk.injEq] at h
          rw [← h.1]
          exact ⟨(mergeSuccessTail_spec o _ _ _).2.1,
            (mergeSuccessTail_spec o _ _ _).2.2⟩

theorem cmdPublishBody_files (p : PublisherO) (s : St) :
    (cmdPublishBody p s).1.files = s.files := by
  unfold cmdPublishBody
  dsimp only
  split
  · rfl
  · split
    · split
      · rfl
      · split
        · split
          · rfl
          · rfl
        · rfl
    · rfl

theorem cmdRunBody_artifacts (r : RunnerO) (s : St)
    (h : (cmdRunBody r s).2 = none) :
    (((cmdRunBody r s).1.files.lookup "run.result").isSome = true ↔
      (cmdRunBody r s).1.retcode ≠ SKT_ERROR) ∧
    (((cmdRunBody r s).1.files.lookup "run.report").isSome = true ↔
      (cmdRunBody r s).1.retcode ≠ SKT_ERROR) := by
  cases hq : s.cfg.runner with
  | none =>
      exfalso
      rw [cmdRunBody] at h
      rw [show (purgeFiles (addTrace "cmd_run" s) "run.").cfg.runner
        = s.cfg.runner from rfl, hq] at h
      exact Option.noConfusion h
  | some q =>
      cases hr : r.runResult with
      | error f =>
          exfalso
          rw [cmdRunBody] at h
          rw [show (purgeFiles (addTrace "cmd_run" s) "run.").cfg.runner
            = s.cfg.runner from rfl, hq] at h
          dsimp only at h
          rw [hr] at h
          exact Option.noConfusion h
      | ok code =>
          obtain ⟨h2, hrc, hw, hs⟩ := cmdRunBody_spec r s q code hq hr
          constructor
          · constructor
            · intro hsome he
              rw [(hs he).1] at hsome
              simp at hsome
            · intro hne
              rw [(hw hne).1]
              rfl
          · constructor
            · intro hsome he
              rw [(hs he).2] at hsome
              simp at hsome
            · intro hne
              rw [(hw hne).2]
              rfl

/-- With a truthy JUnit directory and a non-raising stage body, the wrapper
keeps the body's outcome and appends exactly one test case classified from
the final `retcode`. -/
theorem junitWrap_classify (nm : String) (f : St → St × Option Fault) (s : St)
    (hj : truthy s.cfg.junit = true) (h2 : (f s).2 = none) :
    (junitWrap nm f s).1.retcode = (f s).1.retcode ∧
    (junitWrap nm f s).1.testcases = (f s).1.testcases ++
      [{ name := nm, classname := "skt",
         failureInfo := if (f s).1.retcode = SKT_FAIL then
             ["Step finished with retcode: " ++ toString (f s).1.retcode]
           else [],
         errorInfo := if (f s).1.retcode ≠ SKT_FAIL ∧
             SKT_ERROR ≤ (f s).1.retcode then
             ["Infrastructure issue or skt bug detected, retcode: " ++
               toString (f s).1.retcode]
           else [],
         stdout := some (f s).1.cfg }] := by
  simp only [junitWrap, hj, if_true, h2]
  by_cases hf : (f s).1.retcode = SKT_FAIL
  · simp [hf]
  · by_cases he : SKT_ERROR ≤ (f s).1.retcode
    · simp [hf, he]
    · simp [hf, he]

/-- A `cmd_build` body execution that does not raise always ends by writing
the artifact pair, the boolean mirroring whether the final outcome is
`SKT_SUCCESS`. -/
theorem cmdBuildBody_files (b : BuilderO) (ts : String) (s : St)
    (h : (cmdBuildBody b ts s).2 = none) :
    (cmdBuildBody b ts s).1.files.lookup "build.result" =
      some (if (cmdBuildBody b ts s).1.retcode = 0 then "true" else "false") ∧
    (cmdBuildBody b ts s).1.files.lookup "build.report" ≠ none := by
  cases hm : b.mktgz with
  | ok t =>
      simp only [cmdBuildBody, hm]
      constructor
      · simp only [reportResults_files]
        rw [lookup_setOptIn_ne _ _ _ _ (by decide), lookup_setOptIn_self]
        simp
      · simp only [reportResults_files]
        rw [lookup_setOptIn_self]
        simp
  | error f =>
      cases f with
      | buildClassified m =>
          simp only [cmdBuildBody, hm]
          constructor
          · simp only [reportResults_files]
            rw [lookup_setOptIn_ne _ _ _ _ (by decide), lookup_setOptIn_self]
            simp
          · simp only [reportResults_files]
            rw [lookup_setOptIn_self]
            simp
      | exc m =>
          simp only [cmdBuildBody, hm] at h
          exact absurd h (by simp)
      | patchApplication m =>
          simp only [cmdBuildBody, hm] at h
          exact absurd h (by simp)

theorem mergeRefLoop_pres (o : KTreeO) (l : List (String × Option String)) :
    ∀ (s : St) (bh rs : String) (i : Nat) (ut : List String) (s' : St)
      (ctl : MergeCtl), mergeRefLoop o l s bh rs i ut = (s', ctl) →
      s'.cfg = s.cfg ∧ s'.trace = s.trace := by
  induction l with
  | nil =>
      intro s bh rs i ut s' ctl h
      rw [mergeRefLoop, Prod.mk.injEq] at h
      rw [← h.1]
      exact ⟨rfl, rfl⟩
  | cons mb t ih =>
      intro s bh rs i ut s' ctl h
      rw [mergeRefLoop] at h
      cases hg : o.mergeGitRef mb.1 mb.2 with
      | error f =>
          rw [hg, Prod.mk.injEq] at h
          rw [← h.1]
          exact ⟨rfl, rfl⟩
      | ok cb =>
          obtain ⟨code, bh'⟩ := cb
          rw [hg] at h
          dsimp only at h
          by_cases hc : code ≠ 0
          · rw [if_pos hc] at h
            by_cases he : code ≠ SKT_ERROR
            · rw [if_pos he, Prod.mk.injEq] at h
              rw [← h.1]
              exact ⟨rfl, rfl⟩
            · rw [if_neg he, Prod.mk.injEq] at h
              rw [← h.1]
              exact ⟨rfl, rfl⟩
          · rw [if_neg hc] at h
            have := ih _ _ _ _ _ _ _ h
            exact ⟨by rw [this.1]; rfl, by rw [this.2]; rfl⟩

theorem patchLoop_pres (m : String → Option Fault) (kb : String)
    (lo : String → String) (l : List String) :
    ∀ (s : St) (rs : String) (i : Nat),
    (patchLoop m kb lo l s rs i).1.cfg = s.cfg ∧
    (patchLoop m kb lo l s rs i).1.trace = s.trace := by
  induction l with
  | nil => intro s rs i; exact ⟨rfl, rfl⟩
  | cons p t ih =>
      intro s rs i
      rw [patchLoop]
      cases m p with
      | some f => exact ⟨rfl, rfl⟩
      | none =>
          have := ih (stSave s (fun c => c) [(kb ++ pad2 i, some p)])
            (rs ++ lo p) (i + 1)
          exact ⟨by rw [this.1]; rfl, by rw [this.2]; rfl⟩

theorem mergeFaultHandler_pres (o : KTreeO) (s : St) (rs : String)
    (f : Fault) :
    (mergeFaultHandler o s rs f).1.cfg.junit = s.cfg.junit ∧
    (mergeFaultHandler o s rs f).1.cfg.wait = s.cfg.wait ∧
    (mergeFaultHandler o s rs f).1.trace = s.trace := by
  cases f <;> exact ⟨rfl, rfl, rfl⟩

theorem mergeSuccessTail_pres (o : KTreeO) (s : St) (ut : List String)
    (rs : String) :
    (mergeSuccessTail o s ut rs).1.cfg.junit = s.cfg.junit ∧
    (mergeSuccessTail o s ut rs).1.cfg.wait = s.cfg.wait ∧
    (mergeSuccessTail o s ut rs).1.trace = s.trace := by
  exact ⟨rfl, rfl, rfl⟩

theorem cmdMergeBody_pres (o : KTreeO) (pn : String → String) (s s' : St)
    (r : Option Fault) (h : cmdMergeBody o pn s = (s', r)) :
    s'.cfg.junit = s.cfg.junit ∧ s'.cfg.wait = s.cfg.wait ∧
    s'.trace = s.trace ++ ["cmd_merge"] := by
  rw [cmdMergeBody] at h
  cases hck : o.checkout with
  | error f =>
      rw [hck, Prod.mk.injEq] at h
      rw [← h.1]
      exact ⟨rfl, rfl, rfl⟩
  | ok bh0 =>
      rw [hck] at h
      dsimp only at h
      split at h
      · split at h
        · rename_i s3 f heq
          have hp := mergeRefLoop_pres o _ _ _ _ _ _ _ _ heq
          have h1 := congrArg Prod.fst h
          dsimp only at h1
          rw [← h1]
          refine ⟨?_, ?_, ?_⟩
          · rw [(mergeFaultHandler_pres o s3 _ f).1, hp.1]
            rfl
          · rw [(mergeFaultHandler_pres o s3 _ f).2.1, hp.1]
            rfl
          · rw [(mergeFaultHandler_pres o s3 _ f).2.2, hp.2]
            rfl
        · rename_i s3 heq
          have hp := mergeRefLoop_pres o _ _ _ _ _ _ _ _ heq
          have h1 := congrArg Prod.fst h
          dsimp only at h1
          rw [← h1]
          refine ⟨?_, ?_, ?_⟩
          · rw [hp.1]
            rfl
          · rw [hp.1]
            rfl
          · rw [hp.2]
            rfl
        · rename_i s3 b rr ii u heq
          have hp := mergeRefLoop_pres o _ _ _ _ _ _ _ _ heq
          have h1 := congrArg Prod.fst h
          dsimp only at h1
          rw [← h1]
          refine ⟨?_, ?_, ?_⟩
          · rw [(mergeSuccessTail_pres o s3 u rr).1, hp.1]
            rfl
          · rw [(mergeSuccessTail_pres o s3 u rr).2.1, hp.1]
            rfl
          · rw [(mergeSuccessTail_pres o s3 u rr).2.2, hp.2]
            rfl
      · split at h
        · split at h
          · rename_i f heq
            have h1 := congrArg Prod.fst h
            dsimp only at h1
            rw [← h1]
            refine ⟨?_, ?_, ?_⟩
            · rw [(mergeFaultHandler_pres o _ _ f).1]
              split
              · rw [(patchLoop_pres _ _ _ _ _ _ _).1]
                rfl
              · rw [(patchLoop_pres _ _ _ _ _ _ _).1]
                rfl
            · rw [(mergeFaultHandler_pres o _ _ f).2.1]
              split
              · rw [(patchLoop_pres _ _ _ _ _ _ _).1]
                rfl
              · rw [(patchLoop_pres _ _ _ _ _ _ _).1]
                rfl
            · rw [(mergeFaultHandler_pres o _ _ f).2.2]
              split
              · rw [(patchLoop_pres _ _ _ _ _ _ _).2]
                rfl
              · rw [(patchLoop_pres _ _ _ _ _ _ _).2]
                rfl
          · rename_i heq
            have h1 := congrArg Prod.fst h
            dsimp only at h1
            rw [← h1]
            refine ⟨?_, ?_, ?_⟩
            · rw [(mergeSuccessTail_pres o _ _ _).1]
              split
              · rw [(patchLoop_pres _ _ _ _ _ _ _).1]
                rfl
              · rw [(patchLoop_pres _ _ _ _ _ _ _).1]
                rfl
            · rw [(mergeSuccessTail_pres o _ _ _).2.1]
              split
              · rw [(patchLoop_pres _ _ _ _ _ _ _).1]
                rfl
              · rw [(patchLoop_pres _ _ _ _ _ _ _).1]
                rfl
            · rw [(mergeSuccessTail_pres o _ _ _).2.2]
              split
              · rw [(patchLoop_pres _ _ _ _ _ _ _).2]
                rfl
              · rw [(patchLoop_pres _ _ _ _ _ _ _).2]
                rfl
        · rw [Prod.mk.injEq] at h
          rw [← h.1]
          exact ⟨rfl, rfl, rfl⟩


theorem junitWrap_cfg (nm : String) (f : St → St × Option Fault) (s : St)
    (hj : truthy s.cfg.junit = true) :
    (junitWrap nm f s).1.cfg = (f s).1.cfg ∧
    (junitWrap nm f s).1.trace = (f s).1.trace := by
  rw [junitWrap, if_pos hj]
  dsimp only
  split <;> constructor <;> rfl

theorem stagePres (nm : String) (f : St → St × Option Fault) (s : St)
    (hj : truthy s.cfg.junit = true)
    (hf : (f s).1.cfg.junit = s.cfg.junit ∧ (f s).1.cfg.wait = s.cfg.wait ∧
          (f s).1.trace = s.trace ++ [nm]) :
    (junitWrap nm f s).2 = none ∧
    (junitWrap nm f s).1.cfg.junit = s.cfg.junit ∧
    (junitWrap nm f s).1.cfg.wait = s.cfg.wait ∧
    (junitWrap nm f s).1.trace = s.trace ++ [nm] := by
  obtain ⟨h2, h3⟩ := junitWrap_cfg nm f s hj
  exact ⟨junitWrap_none nm f s hj, by rw [h2, hf.1], by rw [h2, hf.2.1],
    by rw [h3, hf.2.2]⟩

theorem cmdBuildBody_pres (b : BuilderO) (tstamp : String) (s s' : St)
    (r : Option Fault) (h : cmdBuildBody b tstamp s = (s', r)) :
    s'.cfg.junit = s.cfg.junit ∧ s'.cfg.wait = s.cfg.wait ∧
    s'.trace = s.trace ++ ["cmd_build"] := by
  rw [cmdBuildBody] at h
  cases hm : b.mktgz with
  | ok t =>
      rw [hm] at h
      dsimp only at h
      rw [Prod.mk.injEq] at h
      rw [← h.1]
      exact ⟨rfl, rfl, rfl⟩
  | error f =>
      rw [hm] at h
      cases f <;>
        · dsimp only at h
          rw [Prod.mk.injEq] at h
          rw [← h.1]
          exact ⟨rfl, rfl, rfl⟩

theorem cmdPublishBody_pres (p : PublisherO) (s s' : St) (r : Option Fault)
    (h : cmdPublishBody p s = (s', r)) :
    s'.cfg.junit = s.cfg.junit ∧ s'.cfg.wait = s.cfg.wait ∧
    s'.trace = s.trace ++ ["cmd_publish"] := by
  rw [cmdPublishBody] at h
  split at h
  · rw [Prod.mk.injEq] at h
    rw [← h.1]
    exact ⟨rfl, rfl, rfl⟩
  · split at h
    · split at h
      · rw [Prod.mk.injEq] at h
        rw [← h.1]
        exact ⟨rfl, rfl, rfl⟩
      · split at h
        · split at h <;>
            · rw [Prod.mk.injEq] at h
              rw [← h.1]
              exact ⟨rfl, rfl, rfl⟩
        · rw [Prod.mk.injEq] at h
          rw [← h.1]
          exact ⟨rfl, rfl, rfl⟩
    · rw [Prod.mk.injEq] at h
      rw [← h.1]
      exact ⟨rfl, rfl, rfl⟩

theorem cmdRunBody_pres (r : RunnerO) (s s' : St) (rt : Option Fault)
    (h : cmdRunBody r s = (s', rt)) :
    s'.cfg.junit = s.cfg.junit ∧ s'.cfg.wait = s.cfg.wait ∧
    s'.trace = s.trace ++ ["cmd_run"] := by
  rw [cmdRunBody] at h
  dsimp only at h
  split at h
  · rw [Prod.mk.injEq] at h
    rw [← h.1]
    exact ⟨rfl, rfl, rfl⟩
  · split at h
    · rw [Prod.mk.injEq] at h
      rw [← h.1]
      exact ⟨rfl, rfl, rfl⟩
    · rename_i code heqr
      split at h <;>
        · rw [Prod.mk.injEq] at h
          rw [← h.1]
          refine ⟨?_, ?_, ?_⟩ <;>
            simp [runJobs_cfg, runJobs_trace]

theorem cmdReport_fst (rep : ReporterO) (s : St) :
    (cmdReport rep s).1 = addTrace "cmd_report" s := by
  rw [cmdReport]
  split
  · split <;> rfl
  · rfl

theorem cmdReport_snd_none (rep : ReporterO) (s : St)
    (hrep : rep.reportResult = none) : (cmdReport rep s).2 = none := by
  rw [cmdReport]
  split
  · rw [hrep]
  · rfl

theorem cmdCleanup_trace (s : St) :
    (cmdCleanup s).1.trace = s.trace ++ ["cmd_cleanup"] := by
  rw [cmdCleanup, cleanupWipe_trace, cleanupTar_trace, cleanupState_trace]
  rfl

theorem seqSt_eq (r : St × Option Fault) (g : St → St × Option Fault)
    (h : r.2 = none) : seqSt r g = g r.1 := by
  rw [seqSt, h]

/-! # Claims -/

/-- Claim C1, counterexample.  The claim asserts that, whether or not JUnit
collection was requested, a fault escaping a wrapped stage is caught, forces
the outcome to `ERROR`, and the wrapped call returns normally.  On a
configuration without a JUnit directory and a publish stage that raises
(missing `tarpkg`), the wrapped call re-raises the fault and the outcome is
left at `SKT_SUCCESS`. -/
theorem C1_cex :
    (junitWrap "cmd_publish" (cmdPublishBody pubOkO) st0).2 =
      some (Fault.exc "skt publish is missing \"--tarpkg <path>\" option") ∧
    (junitWrap "cmd_publish" (cmdPublishBody pubOkO) st0).1.retcode =
      SKT_SUCCESS := by
  decide

/-- Claim C1, amended: when JUnit collection is requested, any fault that
escapes the stage function is caught by the wrapper, logged with its trace,
recorded as an error on the appended test case, and forces the outcome to
`SKT_ERROR`; the wrapped call returns normally.  (Without JUnit collection
the wrapper simply delegates, and a fault propagates to the caller.) -/
theorem C1_wrapper_isolates (nm : String) (f : St → St × Option Fault) (s : St)
    (hj : truthy s.cfg.junit = true) :
    (junitWrap nm f s).2 = none ∧
    (∀ fl, (f s).2 = some fl →
      (junitWrap nm f s).1.retcode = SKT_ERROR ∧
      traceOf fl ∈ (junitWrap nm f s).1.log ∧
      ∃ tc, (junitWrap nm f s).1.testcases.getLast? = some tc ∧
        traceOf fl ∈ tc.errorInfo) := by
  refine ⟨junitWrap_none nm f s hj, ?_⟩
  intro fl hfl
  simp only [junitWrap, hj, if_true, hfl]
  refine ⟨trivial, by simp, _, List.getLast?_concat _, ?_⟩
  simp [SKT_ERROR, SKT_FAIL]

/-- Claim C1, witness for the amended theorem at a concrete input. -/
theorem C1_witness :
    truthy stJ.cfg.junit = true ∧
    (junitWrap "cmd_publish" (cmdPublishBody pubOkO) stJ).2 = none := by
  refine ⟨by decide, ?_⟩
  exact (C1_wrapper_isolates "cmd_publish" (cmdPublishBody pubOkO) stJ
    (by decide)).1

/-- Claim C6, counterexample.  The claim asserts that publishing without a
package path aborts immediately and is never counted as `FAIL` or `ERROR`,
including when JUnit collection is requested.  With JUnit requested, the
missing-`tarpkg` fault is caught by the isolation wrapper, the outcome is
forced to `SKT_ERROR`, and the appended test case carries two error
entries — it is classified, and the invocation does not abort. -/
theorem C6_cex :
    (junitWrap "cmd_publish" (cmdPublishBody pubOkO) stJ).2 = none ∧
    (junitWrap "cmd_publish" (cmdPublishBody pubOkO) stJ).1.retcode = SKT_ERROR ∧
    ((junitWrap "cmd_publish" (cmdPublishBody pubOkO) stJ).1.testcases.map
      (fun tc => tc.errorInfo.length)) = [2] := by
  decide

/-- Claim C6, amended: a publish invocation without a previously produced
package path raises an unclassified fault.  Without JUnit collection the
fault escapes the wrapper and aborts the invocation, counted as neither
`FAIL` nor `ERROR`; with JUnit collection requested the isolation wrapper
catches it and classifies the stage as `SKT_ERROR`. -/
theorem C6_publish_missing_tarpkg (p : PublisherO) (s : St)
    (pp : String × String × String)
    (hpub : s.cfg.publisher = some pp) (htar : truthy s.cfg.tarpkg = false) :
    (truthy s.cfg.junit = false →
      (junitWrap "cmd_publish" (cmdPublishBody p) s).2 =
        some (Fault.exc "skt publish is missing \"--tarpkg <path>\" option") ∧
      (junitWrap "cmd_publish" (cmdPublishBody p) s).1.retcode = s.retcode) ∧
    (truthy s.cfg.junit = true →
      (junitWrap "cmd_publish" (cmdPublishBody p) s).2 = none ∧
      (junitWrap "cmd_publish" (cmdPublishBody p) s).1.retcode = SKT_ERROR ∧
      ∃ tc, (junitWrap "cmd_publish" (cmdPublishBody p) s).1.testcases.getLast?
          = some tc ∧ tc.errorInfo ≠ []) := by
  constructor
  · intro hj
    simp [junitWrap, hj, cmdPublishBody, addTrace, hpub, htar]
  · intro hj
    simp only [junitWrap, hj, if_true, cmdPublishBody, addTrace, hpub, htar,
      Bool.false_eq_true, if_false]
    refine ⟨trivial, trivial, _, List.getLast?_concat _, ?_⟩
    simp [SKT_ERROR, SKT_FAIL]

/-- Claim C6, witness for the amended theorem at a concrete input. -/
theorem C6_witness :
    stJ.cfg.publisher = some ("cp", "/srv/pub", "http://srv") ∧
    truthy stJ.cfg.tarpkg = false ∧
    truthy stJ.cfg.junit = true ∧
    (junitWrap "cmd_publish" (cmdPublishBody pubOkO) stJ).1.retcode =
      SKT_ERROR := by
  refine ⟨by decide, by decide, by decide, ?_⟩
  exact ((C6_publish_missing_tarpkg pubOkO stJ ("cp", "/srv/pub", "http://srv")
    (by decide) (by decide)).2 (by decide)).2.1

/-- Claim C9, counterexample.  The claim asserts that cleanup clears the
persisted state section only if state-saving is enabled.  On a state whose
`--state` flag is off but whose rc document has a `state` section, cleanup
removes the section (and rewrites the file) anyway. -/
theorem C9_cex :
    ({ cfg := cfg0, doc := docWithState : St }).cfg.state = false ∧
    hasSection ({ cfg := cfg0, doc := docWithState : St }).doc "state" = true ∧
    hasSection (cmdCleanup { cfg := cfg0, doc := docWithState }).1.doc "state"
      = false := by
  decide

/-- Claim C9, amended: cleanup removes the `state` section of the rc
document whenever one is present, regardless of the state-saving flag
(contradicting the function's own docstring); it unlinks the package
artifact, ignoring its absence; it removes the work tree only when the
destructive-clean flag was set, and that removal faults when the directory
is missing; with the destructive-clean flag unset (in particular with no
tarball and no work directory present) cleanup completes without fault. -/
theorem C9_cleanup (s : St) :
    hasSection (cmdCleanup s).1.doc "state" = false ∧
    (truthy s.cfg.tarpkg = true →
      fsHas (cmdCleanup s).1.fs (pyStr s.cfg.tarpkg) = false) ∧
    (¬ (s.cfg.wipe = true ∧ truthy s.cfg.workdir = true) →
      (cmdCleanup s).2 = none) ∧
    (s.cfg.wipe = true → truthy s.cfg.workdir = true →
      (fsHas (if truthy s.cfg.tarpkg then
          s.fs.filter (fun p => p ≠ pyStr s.cfg.tarpkg) else s.fs)
          (pyStr s.cfg.workdir) = true →
        (cmdCleanup s).2 = none ∧
        fsHas (cmdCleanup s).1.fs (pyStr s.cfg.workdir) = false) ∧
      (fsHas (if truthy s.cfg.tarpkg then
          s.fs.filter (fun p => p ≠ pyStr s.cfg.tarpkg) else s.fs)
          (pyStr s.cfg.workdir) = false →
        (cmdCleanup s).2 ≠ none)) := by
  unfold cmdCleanup
  have hcfg : (cleanupTar (cleanupState (addTrace "cmd_cleanup" s))).cfg = s.cfg := by
    rw [cleanupTar_cfg, cleanupState_cfg]; rfl
  have hfs : (cleanupTar (cleanupState (addTrace "cmd_cleanup" s))).fs =
      (if truthy s.cfg.tarpkg then
        s.fs.filter (fun p => p ≠ pyStr s.cfg.tarpkg) else s.fs) := by
    rw [cleanupTar_fs_spec, cleanupState_cfg, cleanupState_fs]; rfl
  refine ⟨?_, ?_, ?_, ?_⟩
  · rw [cleanupWipe_doc, cleanupTar_doc, cleanupState_doc]
  · intro ht
    apply cleanupWipe_fs_false
    rw [hfs]
    simp only [ht, if_true]
    exact fsHas_filter_ne _ _
  · intro hnw
    unfold cleanupWipe
    rw [hcfg]
    split
    · rename_i hw
      exact absurd ⟨hw.1, hw.2⟩ hnw
    · rfl
  · intro hw hwd
    constructor
    · intro hin
      unfold cleanupWipe
      rw [hcfg, hfs]
      simp only [hw, hwd, and_self, if_true, hin]
      refine ⟨trivial, ?_⟩
      simpa using fsHas_filter_ne _ (pyStr s.cfg.workdir)
    · intro hout
      unfold cleanupWipe
      rw [hcfg, hfs]
      simp only [hw, hwd, and_self, if_true, hout]
      simp

/-- Claim C9, witness: the amended cleanup behaviour at a concrete input
with the destructive-clean flag unset. -/
theorem C9_witness :
    hasSection (cmdCleanup { cfg := cfg0, doc := docWithState }).1.doc "state"
      = false ∧
    (cmdCleanup { cfg := cfg0, doc := docWithState }).2 = none := by
  refine ⟨(C9_cleanup _).1, ?_⟩
  exact (C9_cleanup { cfg := cfg0, doc := docWithState }).2.2.1 (by decide)

/-- Claim C8, counterexample.  The claim asserts that the run artifacts are
written if and only if the final outcome is strictly below the `ERROR`
threshold.  With a runner returning the outcome code 3 (an ERROR-tier code
above `SKT_ERROR`), the source's `retcode != SKT_ERROR` guard still writes
`run.result`/`run.report`. -/
theorem C8_cex :
    ((cmdRunBody run3O st0).1.files.lookup "run.result").isSome = true ∧
    ((cmdRunBody run3O st0).1.files.lookup "run.report").isSome = true ∧
    (cmdRunBody run3O st0).1.retcode = 3 ∧
    ¬ (3 < SKT_ERROR) := by
  decide

/-- Claim C8, amended: for every run-stage execution whose runner call
returns an outcome code, the `run.result` and `run.report` artifact files
are present after the execution if and only if the final outcome of that
execution is not exactly `SKT_ERROR` (outcome codes above `SKT_ERROR` still
write the pair). -/
theorem C8_run_artifacts (r : RunnerO) (s : St) (q : String × String)
    (code : Nat) (hq : s.cfg.runner = some q) (hrun : r.runResult = .ok code) :
    (((cmdRunBody r s).1.files.lookup "run.result").isSome = true ↔
      (cmdRunBody r s).1.retcode ≠ SKT_ERROR) ∧
    (((cmdRunBody r s).1.files.lookup "run.report").isSome = true ↔
      (cmdRunBody r s).1.retcode ≠ SKT_ERROR) := by
  obtain ⟨h2, hrc, hw, hs⟩ := cmdRunBody_spec r s q code hq hrun
  constructor
  · constructor
    · intro hsome he
      rw [(hs he).1] at hsome
      simp at hsome
    · intro hne
      rw [(hw hne).1]
      rfl
  · constructor
    · intro hsome he
      rw [(hs he).2] at hsome
      simp at hsome
    · intro hne
      rw [(hw hne).2]
      rfl

/-- Claim C8, witness for the amended theorem at a concrete input (outcome
code 3: artifacts present, final outcome not `SKT_ERROR`). -/
theorem C8_witness :
    ((cmdRunBody run3O st0).1.files.lookup "run.result").isSome = true ∧
    (cmdRunBody run3O st0).1.retcode ≠ SKT_ERROR := by
  have h := (C8_run_artifacts run3O st0 ("beaker", "opts") 3 (by decide) rfl).1
  have hrc : (cmdRunBody run3O st0).1.retcode ≠ SKT_ERROR := by decide
  exact ⟨h.mpr hrc, hrc⟩

/-- Claim C2: within a single wrapped `cmd_run` execution, once the outcome
is an ERROR-tier code the job loop can only keep it or set it to
`SKT_ERROR` — a later successful operation never reverts it to
`SKT_SUCCESS` — and the test case the wrapper appends for the stage carries
the error classification. -/
theorem C2_error_sticky (r : RunnerO) (s : St) (q : String × String)
    (code : Nat) (hj : truthy s.cfg.junit = true) (hq : s.cfg.runner = some q)
    (hrun : r.runResult = .ok code) (hcode : SKT_ERROR ≤ code) :
    (∀ (l : List String) (s' : St) (i : Nat), SKT_ERROR ≤ s'.retcode →
      SKT_ERROR ≤ (runJobs r l s' i).retcode) ∧
    (junitWrap "cmd_run" (cmdRunBody r) s).2 = none ∧
    SKT_ERROR ≤ (junitWrap "cmd_run" (cmdRunBody r) s).1.retcode ∧
    ∃ tc, (junitWrap "cmd_run" (cmdRunBody r) s).1.testcases.getLast? = some tc
      ∧ tc.errorInfo ≠ [] := by
  obtain ⟨h2, hrc, _, _⟩ := cmdRunBody_spec r s q code hq hrun
  have hge : SKT_ERROR ≤ (cmdRunBody r s).1.retcode := by
    rcases hrc with h | h <;> rw [h]
    exact hcode
  have hcl := junitWrap_classify "cmd_run" (cmdRunBody r) s hj h2
  have hnf : (cmdRunBody r s).1.retcode ≠ SKT_FAIL := by
    intro hf
    rw [hf] at hge
    exact absurd hge (by decide)
  refine ⟨fun l s' i h => runJobs_rc_ge r l s' i h,
    junitWrap_none _ _ _ hj, ?_, ?_⟩
  · rw [hcl.1]
    exact hge
  · rw [hcl.2]
    refine ⟨_, List.getLast?_concat _, ?_⟩
    simp only [if_pos (And.intro hnf hge)]
    simp

/-- Claim C2, witness at a concrete input (runner outcome 3, JUnit on). -/
theorem C2_witness :
    SKT_ERROR ≤ (junitWrap "cmd_run" (cmdRunBody run3O) stJ).1.retcode ∧
    (junitWrap "cmd_run" (cmdRunBody run3O) stJ).2 = none := by
  have h := C2_error_sticky run3O stJ ("beaker", "opts") 3 (by decide)
    (by decide) rfl (by decide)
  exact ⟨h.2.2.1, h.2.1⟩

/-- Claim C3, counterexample.  The claim asserts that the key families are
rebuilt "by ascending numeric suffix".  The loop preserves document order,
so a state section listing `mergerepo_01=B` before `mergerepo_00=A` loads
as `["B", "A"]`, not as the suffix-ascending `["A", "B"]`. -/
theorem C3_cex :
    (loadStateSection emptyLCfg
      [("mergerepo_01", "B"), ("mergerepo_00", "A")]).mergerepos =
      some ["B", "A"] ∧
    some ["B", "A"] ≠ some ["A", "B"] := by
  decide

/-- Claim C3, amended: for a state section with distinct option names and
none of them already truthy in the configuration, `load_config` rebuilds
the `mergerepo_`, `mergehead_`, `localpatch_` and `patchwork_` families
into lists of their values in document order (which is ascending-suffix
order only when the document was written that way), while the `jobid_`
family is accumulated into an unordered set, not an ordered sequence. -/
theorem C3_load_families (its : List (String × String))
    (hnd : (its.map Prod.fst).Nodup) :
    (loadStateSection emptyLCfg its).mergerepos =
      (if famVals "mergerepo_" its = [] then none
       else some (famVals "mergerepo_" its)) ∧
    (loadStateSection emptyLCfg its).mergeheads =
      (if famVals "mergehead_" its = [] then none
       else some (famVals "mergehead_" its)) ∧
    (loadStateSection emptyLCfg its).localpatches =
      (if famVals "localpatch_" its = [] then none
       else some (famVals "localpatch_" its)) ∧
    (loadStateSection emptyLCfg its).patchworks =
      (if famVals "patchwork_" its = [] then none
       else some (famVals "patchwork_" its)) ∧
    (loadStateSection emptyLCfg its).jobs =
      (if famVals "jobid_" its = [] then none
       else some ((famVals "jobid_" its).foldl (fun t v => insert v t) ∅)) := by
  obtain ⟨i1, i2, i3, i4, i5⟩ := loadStateSection_aggs its emptyLCfg
    (fun _ _ => rfl) hnd
  rw [i1, i2, i3, i4, i5]
  exact ⟨appList_none _, appList_none _, appList_none _, appList_none _,
    appJobs_none _⟩

/-- Claim C3, witness: a suffix-ordered document loads the mergerepo family
in that same order, and a jobid entry lands in the set aggregate. -/
theorem C3_witness :
    ((([("mergerepo_00", "A"), ("mergerepo_01", "B"), ("jobid_0", "J")] :
        List (String × String)).map Prod.fst).Nodup) ∧
    (loadStateSection emptyLCfg
      [("mergerepo_00", "A"), ("mergerepo_01", "B"), ("jobid_0", "J")]).mergerepos
      = some ["A", "B"] := by
  refine ⟨by decide, ?_⟩
  have h := (C3_load_families
    [("mergerepo_00", "A"), ("mergerepo_01", "B"), ("jobid_0", "J")]
    (by decide)).1
  exact h.trans (by decide)

/-- Claim C5: with state-saving enabled, `save_state` writes every
non-null update into the `state` section of the rc document (option names
lowercased, as `ConfigParser.set` does), and a subsequent fresh load of
the same document reproduces each stored key exactly; null-valued updates
are applied to the in-memory configuration only and never change the
on-disk document. -/
theorem C5_persist_load (cfg : MCfg) (d : Doc)
    (us : List (String × Option String))
    (hflag : truthy (cfg "state") = true)
    (hsk : ∀ u ∈ us, u.1 ≠ "state")
    (hnd : ((us.map (fun u => strToLower u.1)).Nodup))
    (hdoc : ((docItems d "state").map Prod.fst).Nodup) :
    (∀ k v, (k, some v) ∈ us →
      lookupOpt (saveState cfg d us).2 "state" (strToLower k) = some v ∧
      (loadStateCfg true (saveState cfg d us).2 emptyLCfg).base (strToLower k)
        = some v) ∧
    (∀ k, (k, none) ∈ us →
      (saveState cfg d us).1 k = none ∧
      lookupOpt (saveState cfg d us).2 "state" (strToLower k) =
        lookupOpt d "state" (strToLower k)) := by
  have hmm : (us.map Prod.fst).map strToLower =
      us.map (fun u => strToLower u.1) := by
    rw [List.map_map]
    rfl
  have hkeysnd : (us.map Prod.fst).Nodup :=
    List.Nodup.of_map strToLower (by rw [hmm]; exact hnd)
  have hstate : (us.foldl (fun c kv => mcfgSet c kv.1 kv.2) cfg) "state"
      = cfg "state" := mcfgFold_not_mem us cfg "state" hsk
  have hsave2 : (saveState cfg d us).2 = us.foldl writeStateOpt
      (if hasSection d "state" then d else addSection d "state") := by
    unfold saveState saveStateDoc
    simp [hstate, hflag]
  have hd1sec : hasSection
      (if hasSection d "state" then d else addSection d "state") "state"
      = true := by
    by_cases h : hasSection d "state" = true
    · simp [h]
    · rw [if_neg (by simpa using h)]
      exact hasSection_addSection d "state"
  have hd1items : docItems
      (if hasSection d "state" then d else addSection d "state") "state"
      = docItems d "state" := by
    by_cases h : hasSection d "state" = true
    · simp [h]
    · rw [if_neg (by simpa using h)]
      rw [docItems_addSection d "state" (by simpa using h)]
      rw [docItems_of_not_hasSection d "state" (by simpa using h)]
  constructor
  · intro k v hm
    constructor
    · rw [hsave2]
      exact writeFold_some us _ hd1sec hnd k v hm
    · rw [hsave2]
      have hsec2 : hasSection (us.foldl writeStateOpt
          (if hasSection d "state" then d else addSection d "state")) "state"
          = true := by
        rw [writeFold_hasSection]
        exact hd1sec
      unfold loadStateCfg
      rw [if_pos ⟨rfl, hsec2⟩]
      apply loadStateSection_base_lookup
      · exact fun _ _ => rfl
      · apply writeFold_keys_nodup
        rw [hd1items]
        exact hdoc
      · exact writeFold_some us _ hd1sec hnd k v hm
  · intro k hm
    constructor
    · exact mcfgFold_mem us cfg k none hkeysnd hm
    · rw [hsave2]
      have hall : ∀ u ∈ us, u.2 = none ∨ strToLower u.1 ≠ strToLower k := by
        intro u hu
        by_cases hueq : strToLower u.1 = strToLower k
        · left
          have := List.inj_on_of_nodup_map hnd hu hm (by simpa using hueq)
          rw [this]
        · exact Or.inr hueq
      rw [writeFold_preserve us _ _ hall]
      unfold lookupOpt
      rw [hd1items]

/-- Claim C7, counterexample.  The claim asserts that every stage execution
always produces both a `<stage>.result` and a `<stage>.report` file, the
sole exception being the run stage's artifacts under ERROR.  A fault-free
publish execution touches no artifact files at all. -/
theorem C7_cex :
    (junitWrap "cmd_publish" (cmdPublishBody pubOkO) stPub).2 = none ∧
    (junitWrap "cmd_publish" (cmdPublishBody pubOkO) stPub).1.files = [] := by
  decide

/-- Claim C7, amended: of the wrapped stages, only merge, build and run
write a result/report artifact pair.  A fault-free build execution always
writes both build files; a fault-free run execution writes its pair exactly
when the final outcome is not `SKT_ERROR`; a fault-free merge execution
writes both merge files except when a git reference merge returns exactly
`SKT_ERROR`, which suppresses them; publish never touches the artifact
files. -/
theorem C7_artifact_pairs :
    (∀ (o : KTreeO) (pn : String → String) (s s' : St),
      cmdMergeBody o pn s = (s', none) →
      (((s'.files.lookup "merge.result").isSome = true ∧
        (s'.files.lookup "merge.report").isSome = true) ↔
       ¬(s.cfg.mergeRef ≠ [] ∧ gitErrorStops o s.cfg.mergeRef = true))) ∧
    (∀ (b : BuilderO) (ts : String) (s : St),
      (cmdBuildBody b ts s).2 = none →
      ((cmdBuildBody b ts s).1.files.lookup "build.result").isSome = true ∧
      ((cmdBuildBody b ts s).1.files.lookup "build.report").isSome = true) ∧
    (∀ (r : RunnerO) (s : St), (cmdRunBody r s).2 = none →
      (((cmdRunBody r s).1.files.lookup "run.result").isSome = true ↔
        (cmdRunBody r s).1.retcode ≠ SKT_ERROR)) ∧
    (∀ (p : PublisherO) (s : St), (cmdPublishBody p s).1.files = s.files) := by
  refine ⟨fun o pn s s' h => cmdMergeBody_files o pn s s' h, ?_,
    fun r s h => (cmdRunBody_artifacts r s h).1,
    fun p s => cmdPublishBody_files p s⟩
  intro b ts s h
  obtain ⟨h1, h2⟩ := cmdBuildBody_files b ts s h
  constructor
  · rw [h1]
    rfl
  · cases hx : (cmdBuildBody b ts s).1.files.lookup "build.report" with
    | none => exact absurd hx h2
    | some w => rfl

/-- Claim C7, witness: the amended statement at concrete inputs — a failing
build still writes its pair, a fault-free publish leaves the files
untouched. -/
theorem C7_witness :
    (cmdBuildBody builderFailO "20170101000000" st0).2 = none ∧
    ((cmdBuildBody builderFailO "20170101000000" st0).1.files.lookup
      "build.result").isSome = true ∧
    (cmdPublishBody pubOkO stPub).1.files = stPub.files := by
  refine ⟨by decide, ?_, ?_⟩
  · exact (C7_artifact_pairs.2.1 builderFailO "20170101000000" st0
      (by decide)).1
  · exact C7_artifact_pairs.2.2.2 pubOkO stPub

/-- Claim C5, witness: a concrete persist of one non-null and one null
update into an empty document, followed by a fresh load. -/
theorem C5_witness :
    truthy (mcStateOn "state") = true ∧
    lookupOpt (saveState mcStateOn [] usEx).2 "state" (strToLower "tarpkg")
      = some "/w/k.tar.gz" ∧
    (loadStateCfg true (saveState mcStateOn [] usEx).2 emptyLCfg).base
      (strToLower "tarpkg") = some "/w/k.tar.gz" ∧
    (saveState mcStateOn [] usEx).1 "cfgurl" = none ∧
    lookupOpt (saveState mcStateOn [] usEx).2 "state" (strToLower "cfgurl")
      = lookupOpt ([] : Doc) "state" (strToLower "cfgurl") := by
  have h := C5_persist_load mcStateOn [] usEx (by decide) (by decide)
    (by decide) (by decide)
  refine ⟨by decide, ?_, ?_, ?_, ?_⟩
  · exact (h.1 "tarpkg" "/w/k.tar.gz" (by decide)).1
  · exact (h.1 "tarpkg" "/w/k.tar.gz" (by decide)).2
  · exact (h.2 "cfgurl" (by decide)).1
  · exact (h.2 "cfgurl" (by decide)).2

/-- Claim C10: whenever the run stage writes its artifact pair, the
`run.result` file contains `"true"` exactly when the runner's outcome code
is nonzero and `"false"` exactly when it is `SKT_SUCCESS`; whereas a
non-raising build execution writes a `build.result` containing `"true"`
exactly when the final outcome is `SKT_SUCCESS` — the opposite polarity. -/
theorem C10_result_polarity :
    (∀ (r : RunnerO) (s : St) (q : String × String) (code : Nat),
      s.cfg.runner = some q → r.runResult = .ok code →
      ∀ content, (cmdRunBody r s).1.files.lookup "run.result" = some content →
        ((content = "true") ↔ code ≠ 0) ∧ ((content = "false") ↔ code = 0)) ∧
    (∀ (b : BuilderO) (ts : String) (s : St),
      (cmdBuildBody b ts s).2 = none →
      ∀ content,
        (cmdBuildBody b ts s).1.files.lookup "build.result" = some content →
        ((content = "true") ↔ (cmdBuildBody b ts s).1.retcode = SKT_SUCCESS) ∧
        ((content = "false") ↔ (cmdBuildBody b ts s).1.retcode ≠ SKT_SUCCESS))
    := by
  constructor
  · intro r s q code hq hrun content hcontent
    obtain ⟨h2, hrc, hw, hs⟩ := cmdRunBody_spec r s q code hq hrun
    have hne : (cmdRunBody r s).1.retcode ≠ SKT_ERROR := by
      intro he
      rw [(hs he).1] at hcontent
      exact Option.noConfusion hcontent
    have hcode : (cmdRunBody r s).1.retcode = code := by
      rcases hrc with h | h
      · exact h
      · exact absurd h hne
    rw [(hw hne).1, hcode] at hcontent
    have hc := Option.some.inj hcontent
    by_cases h0 : code = 0
    · subst h0
      rw [← hc]
      exact ⟨by decide, by decide⟩
    · simp only [h0, ne_eq, not_false_eq_true, if_true] at hc
      rw [← hc]
      constructor
      · exact ⟨fun _ => h0, fun _ => rfl⟩
      · exact ⟨fun hfls => absurd hfls (by decide), fun hz => absurd hz h0⟩
  · intro b ts s h2 content hcontent
    obtain ⟨hres, _⟩ := cmdBuildBody_files b ts s h2
    rw [hres] at hcontent
    have hc := Option.some.inj hcontent
    by_cases h0 : (cmdBuildBody b ts s).1.retcode = 0
    · simp only [h0, if_true] at hc
      rw [← hc]
      simp only [SKT_SUCCESS]
      exact ⟨⟨fun _ => h0, fun _ => trivial⟩,
        ⟨fun hfls => absurd hfls (by decide), fun hz => absurd h0 hz⟩⟩
    · simp only [h0, if_false] at hc
      rw [← hc]
      simp only [SKT_SUCCESS]
      exact ⟨⟨fun htr => absurd htr (by decide), fun hz => absurd hz h0⟩,
        ⟨fun _ => h0, fun _ => trivial⟩⟩

/-- Claim C10, witness at concrete inputs: a successful run writes
`run.result = "false"`, a failing build writes `build.result = "false"`. -/
theorem C10_witness :
    (cmdRunBody runOkO st0).1.files.lookup "run.result" = some "false" ∧
    (("false" = "false") ↔ (0 : Nat) = 0) ∧
    (cmdBuildBody builderFailO "20170101000000" st0).2 = none ∧
    ∀ content, (cmdBuildBody builderFailO "20170101000000" st0).1.files.lookup
        "build.result" = some content →
      ((content = "true") ↔
        (cmdBuildBody builderFailO "20170101000000" st0).1.retcode
          = SKT_SUCCESS) := by
  refine ⟨by decide, ?_, by decide, ?_⟩
  · exact (C10_result_polarity.1 runOkO st0 ("beaker", "opts") 0 (by decide)
      rfl "false" (by decide)).2
  · intro content hc
    exact (C10_result_polarity.2 builderFailO "20170101000000" st0 (by decide)
      content hc).1

/-- Claim C4 (driver order, JUnit on): with JUnit collection requested and a
fault-free reporter, an `all` invocation runs merge, build, publish and run
in order regardless of their outcomes, report exactly when `wait` was
requested, and cleanup last. -/
theorem C4_driver (o : Oracles) (s : St)
    (hj : truthy s.cfg.junit = true)
    (hrep : o.reporter.reportResult = none) :
    (cmdAll o s).1.trace =
      s.trace ++ ["cmd_merge", "cmd_build", "cmd_publish", "cmd_run"] ++
        (if s.cfg.wait then ["cmd_report"] else []) ++ ["cmd_cleanup"] := by
  have hm := stagePres "cmd_merge" (cmdMergeBody o.ktree o.patchName) s hj
    (cmdMergeBody_pres o.ktree o.patchName s _ _ Prod.mk.eta.symm)
  rw [cmdAll, cmdMerge, cmdBuild, cmdPublish, cmdRun,
    seqSt_eq _ _ hm.1]
  set t1 := (junitWrap "cmd_merge" (cmdMergeBody o.ktree o.patchName) s).1
    with ht1
  have hb := stagePres "cmd_build" (cmdBuildBody o.builder o.tstamp) t1
    (by rw [hm.2.1]; exact hj)
    (cmdBuildBody_pres o.builder o.tstamp t1 _ _ Prod.mk.eta.symm)
  rw [seqSt_eq _ _ hb.1]
  set t2 := (junitWrap "cmd_build" (cmdBuildBody o.builder o.tstamp) t1).1
    with ht2
  have hp := stagePres "cmd_publish" (cmdPublishBody o.publisher) t2
    (by rw [hb.2.1, hm.2.1]; exact hj)
    (cmdPublishBody_pres o.publisher t2 _ _ Prod.mk.eta.symm)
  rw [seqSt_eq _ _ hp.1]
  set t3 := (junitWrap "cmd_publish" (cmdPublishBody o.publisher) t2).1
    with ht3
  have hr := stagePres "cmd_run" (cmdRunBody o.runner) t3
    (by rw [hp.2.1, hb.2.1, hm.2.1]; exact hj)
    (cmdRunBody_pres o.runner t3 _ _ Prod.mk.eta.symm)
  rw [seqSt_eq _ _ hr.1]
  set t4 := (junitWrap "cmd_run" (cmdRunBody o.runner) t3).1 with ht4
  have htr4 : t4.trace =
      s.trace ++ ["cmd_merge", "cmd_build", "cmd_publish", "cmd_run"] := by
    rw [hr.2.2.2, hp.2.2.2, hb.2.2.2, hm.2.2.2]
    simp
  have hw4 : t4.cfg.wait = s.cfg.wait := by
    rw [hr.2.2.1, hp.2.2.1, hb.2.2.1, hm.2.2.1]
  rw [hw4]
  by_cases hw : s.cfg.wait
  · rw [if_pos hw, if_pos hw,
      seqSt_eq _ _ (cmdReport_snd_none o.reporter t4 hrep),
      cmdCleanup_trace, cmdReport_fst]
    rw [show (addTrace "cmd_report" t4).trace = t4.trace ++ ["cmd_report"]
      from rfl, htr4]
  · rw [if_neg hw, if_neg hw, seqSt_eq _ _ rfl, cmdCleanup_trace, htr4]
    simp

/-- Claim C4 counterexample: without JUnit collection, a fault escaping a
stage aborts the invocation before cleanup — here the failed build leaves
no tarball, publish raises, and neither run nor cleanup executes. -/
theorem C4_cex :
    (cmdAll oraclesNoTar st0).1.trace =
      ["cmd_merge", "cmd_build", "cmd_publish"] ∧
    (cmdAll oraclesNoTar st0).2 ≠ none := by
  constructor
  · rfl
  · decide

/-- Witness for C4: a fully successful JUnit-enabled invocation visits
exactly merge, build, publish, run and cleanup (no `wait`). -/
theorem C4_witness :
    truthy stJ.cfg.junit = true ∧
    oraclesOk.reporter.reportResult = none ∧
    (cmdAll oraclesOk stJ).1.trace =
      stJ.trace ++ ["cmd_merge", "cmd_build", "cmd_publish", "cmd_run"] ++
        (if stJ.cfg.wait then ["cmd_report"] else []) ++ ["cmd_cleanup"] :=
  ⟨rfl, rfl, C4_driver oraclesOk stJ rfl rfl⟩

end Skt
